import Mathlib

/-!
A verification model of the Adapton incremental-computation engine
(`src/engine.rs`): the Demanded Computation Graph (DCG), demand-driven
production with edge tracking, dirtying on mutation, and change propagation.

Modelling conventions, kept uniform throughout:

* The Rust engine is generic over payload types `T : Eq + Hash + Clone`;
  the model instantiates all payloads with `Nat` (`Val`), which supports the
  required value equality.  Program points (`ProgPt`) are opaque tokens
  compared only for equality; they are modelled as `Nat`.
* Precomputed 64-bit hashes cached inside `Name` and `Loc` are derived
  quantities (functions of the symbol, resp. of `(path, id)`) and are omitted;
  structural identities keep an explicit hash value, computed by a model hash
  function.
* `&mut Engine` state threading becomes explicit state passing; a Rust
  `panic!` / failed `assert!` becomes an `Except.error` carried next to the
  engine state (the state at the point of the panic survives, as it does
  across a Rust unwind of `&mut` borrowed data).
* The mutually recursive graph walks (`produce`, `force`, change propagation,
  dirtying) take an explicit fuel argument; exhausted fuel is the distinct
  error `Err.outOfFuel` and is never identified with an engine behaviour.
* A producer's closure (`fn_box`) is recovered from a program environment
  `Prog : ProgPt → Val → UComp`, where `UComp` is a small syntax of user
  computations re-entering the engine; the `spurious` pass-through argument
  of `App` is dropped (it is cloned through unchanged and never compared).
* The `wf` module (debug well-formedness checking and graph dumping) is only
  active under the `check_dcg_is_wf` / `write_dcg` flags; `check_dcg` is
  modelled as the identity on states, i.e. the model covers runs with those
  debug flags off (their default).  The `dcg_count` / `dcg_hash` fields that
  exist only for dumping are omitted.  The dead `Node::Unused` variant is
  omitted.
-/

namespace Adapton

/-- Payload values stored in the DCG (model instantiation of the generic
`T : Eq + Hash + Clone`). -/
abbrev Val := Nat

/-- Opaque program points, compared only for equality. -/
abbrev ProgPt := Nat

/-- `NameSym` from `engine.rs`: the symbol language for names. -/
inductive NameSym where
  | root
  | str (s : String)
  | num (n : Nat)
  | pair (l r : NameSym)
  | forkL (s : NameSym)
  | forkR (s : NameSym)
deriving DecidableEq

/-- `Name`: a symbol (the cached hash of the symbol is omitted as derived). -/
structure Name where
  symbol : NameSym
deriving DecidableEq

/-- `Path`: the namespace chain built by `ns`. -/
inductive Path where
  | empty
  | child (p : Path) (n : Name)
deriving DecidableEq

/-- `ArtId`: structural (content-hash) or nominal identity. -/
inductive ArtId where
  | structural (h : Nat)
  | nominal (n : Name)
deriving DecidableEq

/-- `Loc`: the graph key, a path plus an identity (cached hash omitted). -/
structure Loc where
  path : Path
  id : ArtId
deriving DecidableEq

/-- Edge effects. -/
inductive Effect where
  | observe
  | allocate
deriving DecidableEq

/-- Dependency witnesses (`EngineDep` implementors): `NoDependency`,
`AllocDependency {val}`, `ProducerDep {res}`. -/
inductive Dep where
  | noDep
  | allocDep (v : Val)
  | producerDep (r : Val)
deriving DecidableEq

/-- `Succ`: an edge record. -/
structure Succ where
  dirty : Bool
  loc : Loc
  effect : Effect
  dep : Dep
deriving DecidableEq

/-- The data of `App`: program point and current argument.  The closure is
looked up from the program environment via `progPt`; `spurious` is omitted. -/
structure Producer where
  progPt : ProgPt
  arg : Val
deriving DecidableEq

/-- Graph nodes: `PureNode`, `MutNode`, `CompNode`. -/
inductive Node where
  | pure (v : Val)
  | mut (preds : List (Effect × Loc)) (v : Val)
  | comp (preds : List (Effect × Loc)) (succs : List Succ) (producer : Producer)
         (res : Option Val)
deriving DecidableEq

/-- A frame of the currently-executing producer. -/
structure Frame where
  loc : Loc
  succs : List Succ
deriving DecidableEq

/-- The counter bundle `Cnt` (fields used by the engine: `eval`, `dirty`,
`change_prop`). -/
structure Cnt where
  eval : Nat
  dirty : Nat
  changeProp : Nat
deriving DecidableEq

/-- Engine flags. `checkDcgIsWf` and `writeDcg` guard only the debug
diagnostics, which the model treats as inert. -/
structure Flags where
  ignoreNominalUseStructural : Bool
  checkDcgIsWf : Bool
  writeDcg : Bool
deriving DecidableEq

/-- The node store, `HashMap<Rc<Loc>, Box<GraphNode>>`. -/
abbrev Table := Loc → Option Node

/-- The engine state (`dcg_count` / `dcg_hash` dump bookkeeping omitted). -/
structure Engine where
  flags : Flags
  root : Loc
  table : Table
  stack : List Frame
  path : Path
  cnt : Cnt

/-- Rust panics and failed assertions of the engine, plus fuel exhaustion
(an artifact of the model, distinct from every engine behaviour). -/
inductive Err where
  | danglingLoc (l : Loc)
  | nominalCollision (ppOld ppNew : ProgPt)
  | mutationDuringEvaluation
  | brokenInvariant
  | outOfFuel
deriving DecidableEq

/-- `Art`: an opaque handle, either an immediate value (`Art::Rc`) or a
located node (`Art::Loc`). -/
inductive Art where
  | rc (v : Val)
  | loc (l : Loc)
deriving DecidableEq

/-- `ArtIdChoice`. -/
inductive ArtIdChoice where
  | eager
  | structural
  | nominal (n : Name)
deriving DecidableEq

/-- Syntax of user computations run by producers; each constructor re-enters
one engine operation and continues. -/
inductive UComp where
  | ret (v : Val)
  | forceThen (a : Art) (k : Val → UComp)
  | cellThen (nm : Name) (v : Val) (k : Loc → UComp)
  | thunkThen (idc : ArtIdChoice) (pp : ProgPt) (arg : Val) (k : Art → UComp)
  | nsThen (nm : Name) (body : UComp) (k : Val → UComp)

/-- The program environment: the closure bodies behind each program point. -/
abbrev Prog := ProgPt → Val → UComp

/-- An engine operation result: outcome paired with the state at return
(or at the panic). -/
abbrev EResult (α : Type) := Except Err α × Engine

deriving instance DecidableEq for Except

/-- Sequencing of engine operations; errors propagate with their state. -/
def step {α β : Type} (r : EResult α) (k : α → Engine → EResult β) : EResult β :=
  match r with
  | (Except.ok a, st) => k a st
  | (Except.error e, st) => (Except.error e, st)

/-- Model hash of a value (for structural `cell` identities). -/
def myHashVal (v : Val) : Nat := v

/-- Model hash of a `(prog_pt, arg)` pair (for structural thunk identities). -/
def myHashPpArg (pp : ProgPt) (arg : Val) : Nat := Nat.pair pp arg

def Table.empty : Table := fun _ => none

def Table.insert (t : Table) (l : Loc) (n : Node) : Table :=
  fun l2 => if l2 = l then some n else t l2

/-- `lookup_abs`: node lookup, panicking on a dangling location. -/
def lookupAbs (loc : Loc) (st : Engine) : EResult Node :=
  match st.table loc with
  | none => (Except.error (Err.danglingLoc loc), st)
  | some nd => (Except.ok nd, st)

/-- The predecessor list of a node; `none` models the `unreachable!()` on
`PureNode`. -/
def Node.predsOf : Node → Option (List (Effect × Loc))
  | Node.pure _ => none
  | Node.mut preds _ => some preds
  | Node.comp preds _ _ _ => some preds

/-- `preds_alloc`: allocation predecessors. -/
def Node.predsAllocOf (n : Node) : Option (List Loc) :=
  n.predsOf.map (fun ps =>
    ps.filterMap (fun pr => if pr.1 = Effect.allocate then some pr.2 else none))

/-- `preds_obs`: observer predecessors. -/
def Node.predsObsOf (n : Node) : Option (List Loc) :=
  n.predsOf.map (fun ps =>
    ps.filterMap (fun pr => if pr.1 = Effect.observe then some pr.2 else none))

/-- `preds_insert`: push a predecessor record. -/
def Node.predsInsertN : Node → Effect → Loc → Option Node
  | Node.pure _, _, _ => none
  | Node.mut preds v, eff, l => some (Node.mut (preds ++ [(eff, l)]) v)
  | Node.comp preds succs pr res, eff, l =>
      some (Node.comp (preds ++ [(eff, l)]) succs pr res)

/-- `preds_remove`: retain predecessor records whose location differs. -/
def Node.predsRemoveN : Node → Loc → Option Node
  | Node.pure _, _ => none
  | Node.mut preds v, l => some (Node.mut (preds.filter (fun pr => pr.2 ≠ l)) v)
  | Node.comp preds succs pr res, l =>
      some (Node.comp (preds.filter (fun pr => pr.2 ≠ l)) succs pr res)

/-- `succs`: defined on computation nodes only (`panic!("undefined")`
otherwise). -/
def Node.succsOf : Node → Option (List Succ)
  | Node.comp _ succs _ _ => some succs
  | _ => none

/-- First edge with the given effect and target (`get_succ` resolution
order). -/
def findSucc : List Succ → Effect → Loc → Option Succ
  | [], _, _ => none
  | s :: rest, eff, tgt =>
      if s.effect = eff ∧ s.loc = tgt then some s else findSucc rest eff tgt

/-- Set the dirty bit of the first edge with the given effect and target;
`none` models the `panic!` of `get_succ_mut` when the edge is missing. -/
def setDirtyList : List Succ → Effect → Loc → Bool → Option (List Succ)
  | [], _, _, _ => none
  | s :: rest, eff, tgt, b =>
      if s.effect = eff ∧ s.loc = tgt then some ({ s with dirty := b } :: rest)
      else (setDirtyList rest eff tgt b).map (fun r => s :: r)

/-- Read a successor edge through `get_succ_mut`. -/
def getSuccOf (st : Engine) (src : Loc) (eff : Effect) (tgt : Loc) :
    Except Err Succ :=
  match st.table src with
  | none => Except.error (Err.danglingLoc src)
  | some nd =>
    match nd.succsOf with
    | none => Except.error Err.brokenInvariant
    | some succs =>
      match findSucc succs eff tgt with
      | some s => Except.ok s
      | none => Except.error Err.brokenInvariant

/-- Mutate the dirty bit of a successor edge through `get_succ_mut`. -/
def setSuccDirty (st : Engine) (src : Loc) (eff : Effect) (tgt : Loc)
    (b : Bool) : EResult Unit :=
  match st.table src with
  | none => (Except.error (Err.danglingLoc src), st)
  | some (Node.comp preds succs pr res) =>
    match setDirtyList succs eff tgt b with
    | some succs2 =>
        (Except.ok (),
         { st with table := Table.insert st.table src (Node.comp preds succs2 pr res) })
    | none => (Except.error Err.brokenInvariant, st)
  | some _ => (Except.error Err.brokenInvariant, st)

/-- `revoke_succs`: remove the reverse predecessor link of each edge. -/
def revokeSuccs : Loc → List Succ → Engine → EResult Unit
  | _, [], st => (Except.ok (), st)
  | src, s :: rest, st =>
    match st.table s.loc with
    | none => (Except.error (Err.danglingLoc s.loc), st)
    | some nd =>
      match nd.predsRemoveN src with
      | none => (Except.error Err.brokenInvariant, st)
      | some nd2 => revokeSuccs src rest { st with table := Table.insert st.table s.loc nd2 }

/-- Append an edge to the topmost frame's successor list, if a frame is
active (`stack.last_mut()`); the list head is the top of the stack. -/
def pushFrameSucc (st : Engine) (s : Succ) : Engine :=
  match st.stack with
  | [] => st
  | f :: rest => { st with stack := { f with succs := f.succs ++ [s] } :: rest }

/-- `wf::check_dcg`: debug diagnostics, inert in the model (active only under
the `check_dcg_is_wf` / `write_dcg` flags). -/
def checkDcg (st : Engine) : Engine := st

/-- `current_path`. -/
def currentPath (st : Engine) : Path := st.path

/-- The root location built by `Engine::new`. -/
def rootLoc : Loc :=
  { path := Path.empty, id := ArtId.nominal { symbol := NameSym.root } }

/-- `Engine::new` (the Rust code reads the three flags from environment
variables; the model takes them as a parameter). -/
def Engine.new (flags : Flags) : Engine :=
  { flags := flags, root := rootLoc, table := Table.empty, stack := [],
    path := Path.empty, cnt := { eval := 0, dirty := 0, changeProp := 0 } }

/-- `name_of_string`. -/
def nameOfString (s : String) : Name := { symbol := NameSym.str s }

/-- `name_of_usize`. -/
def nameOfUsize (n : Nat) : Name := { symbol := NameSym.num n }

/-- `name_pair`. -/
def namePair (a b : Name) : Name := { symbol := NameSym.pair a.symbol b.symbol }

/-- `name_fork`. -/
def nameFork (n : Name) : Name × Name :=
  ({ symbol := NameSym.forkL n.symbol }, { symbol := NameSym.forkR n.symbol })

/-- `ns`: push a name onto the current path for the duration of `body`.  The
Rust code restores the path by a plain assignment after `body(self)` returns;
a panic inside `body` skips that assignment, which the error branch mirrors. -/
def ns {α : Type} (nm : Name) (body : Engine → EResult α) (st : Engine) :
    EResult α :=
  let basePath := st.path
  match body { st with path := Path.child st.path nm } with
  | (Except.ok x, st2) => (Except.ok x, { st2 with path := basePath })
  | (Except.error e, st2) => (Except.error e, st2)

/-- `structural`: temporarily force structural identities (the flag is
restored only on normal return, as in the source). -/
def structuralOp {α : Type} (body : Engine → EResult α) (st : Engine) :
    EResult α :=
  let saved := st.flags.ignoreNominalUseStructural
  match body { st with flags := { st.flags with ignoreNominalUseStructural := true } } with
  | (Except.ok x, st2) =>
      (Except.ok x,
       { st2 with flags := { st2.flags with ignoreNominalUseStructural := saved } })
  | (Except.error e, st2) => (Except.error e, st2)

/-- `put`: wrap a value as an unlocated handle. -/
def put (v : Val) : Art := Art.rc v

def Cnt.sub (a b : Cnt) : Cnt :=
  { eval := a.eval - b.eval, dirty := a.dirty - b.dirty,
    changeProp := a.changeProp - b.changeProp }

/-- `cnt`: report the counter delta across `body`. -/
def withCnt {α : Type} (body : Engine → EResult α) (st : Engine) :
    EResult (α × Cnt) :=
  let c := st.cnt
  match body st with
  | (Except.ok x, st2) => (Except.ok (x, st2.cnt.sub c), st2)
  | (Except.error e, st2) => (Except.error e, st2)

mutual

/-- `dirty_pred_observers`: mark the observe edge of each observer
predecessor dirty and recurse into predecessors whose edge was clean. -/
def dirtyPredObservers : Nat → Loc → Engine → EResult Unit
  | 0, _, st => (Except.error Err.outOfFuel, st)
  | fuel+1, loc, st =>
    step (lookupAbs loc st) fun nd st =>
      match nd.predsObsOf with
      | none => (Except.error Err.brokenInvariant, st)
      | some predLocs =>
        step (dirtyObsLoop fuel loc predLocs st) fun c st =>
          (Except.ok (),
           { st with cnt := { st.cnt with dirty := st.cnt.dirty + c } })
termination_by structural fuel _ _ => fuel

/-- The loop of `dirty_pred_observers`; returns the number of edges this
invocation marked dirty (`dirty_edge_count`). -/
def dirtyObsLoop : Nat → Loc → List Loc → Engine → EResult Nat
  | _, _, [], st => (Except.ok 0, st)
  | 0, _, _ :: _, st => (Except.error Err.outOfFuel, st)
  | fuel+1, loc, p :: ps, st =>
    if st.root = p then (Except.error Err.brokenInvariant, st)
    else
      match getSuccOf st p Effect.observe loc with
      | Except.error e => (Except.error e, st)
      | Except.ok s =>
        if s.dirty then
          dirtyObsLoop fuel loc ps st
        else
          step (setSuccDirty st p Effect.observe loc true) fun _ st =>
            step (dirtyPredObservers fuel p st) fun _ st =>
              step (dirtyObsLoop fuel loc ps st) fun c st =>
                (Except.ok (c + 1), st)
termination_by structural fuel _ _ _ => fuel

end

/-- The allocation-predecessor loop of `dirty_alloc`. -/
def dirtyAllocLoop : Nat → Loc → List Loc → Engine → EResult Unit
  | _, _, [], st => (Except.ok (), st)
  | 0, _, _ :: _, st => (Except.error Err.outOfFuel, st)
  | fuel+1, loc, p :: ps, st =>
    if st.root = p then (Except.error Err.brokenInvariant, st)
    else
      match getSuccOf st p Effect.allocate loc with
      | Except.error e => (Except.error e, st)
      | Except.ok s =>
        if s.dirty then
          dirtyAllocLoop fuel loc ps st
        else
          step (setSuccDirty st p Effect.allocate loc true) fun _ st =>
            step (dirtyPredObservers fuel p st) fun _ st =>
              dirtyAllocLoop fuel loc ps st

/-- `dirty_alloc`: dirty observers of `loc`, then each allocation
predecessor's allocate edge (recursively dirtying its observers when the
edge was newly marked).  The `if false`-guarded stack check is dead code. -/
def dirtyAlloc : Nat → Loc → Engine → EResult Unit
  | 0, _, st => (Except.error Err.outOfFuel, st)
  | fuel+1, loc, st =>
    step (dirtyPredObservers fuel loc st) fun _ st =>
      step (lookupAbs loc st) fun nd st =>
        match nd.predsAllocOf with
        | none => (Except.error Err.brokenInvariant, st)
        | some predLocs => dirtyAllocLoop fuel loc predLocs st

/-- `set_`: the internal mutation primitive.  Replaces the stored value of a
`MutNode` if it differs and then dirties the location; note there is no
frame-stack check here. -/
def set_ (fuel : Nat) (cellLoc : Loc) (val : Val) (st : Engine) : EResult Unit :=
  match st.table cellLoc with
  | none => (Except.error (Err.danglingLoc cellLoc), st)
  | some (Node.mut preds v) =>
    if v = val then (Except.ok (), st)
    else
      dirtyAlloc fuel cellLoc
        { st with table := Table.insert st.table cellLoc (Node.mut preds val) }
  | some _ => (Except.error Err.brokenInvariant, st)

/-- `set`: the public mutation operation; `assert!(self.stack.is_empty())`
becomes the `MutationDuringEvaluation` failure. -/
def set (fuel : Nat) (cellLoc : Loc) (val : Val) (st : Engine) : EResult Unit :=
  let st := checkDcg st
  if st.stack.isEmpty then
    step (set_ fuel cellLoc val st) fun _ st => (Except.ok (), checkDcg st)
  else (Except.error Err.mutationDuringEvaluation, st)

/-- `cell`: allocate (or re-allocate) a mutable input cell. -/
def cell (fuel : Nat) (nm : Name) (val : Val) (st : Engine) : EResult Loc :=
  let st := checkDcg st
  let id :=
    if st.flags.ignoreNominalUseStructural = false then ArtId.nominal nm
    else ArtId.structural (myHashVal val)
  let loc : Loc := { path := currentPath st, id := id }
  let info : Bool × Bool × Option (List Succ) × Bool :=
    match st.table loc with
    | some (Node.mut _ _) => (false, true, none, false)
    | some (Node.comp _ succs _ _) => (true, false, some succs, true)
    | some _ => (true, false, none, true)
    | none => (false, false, none, true)
  step (if info.1 then dirtyAlloc fuel loc st else (Except.ok (), st)) fun _ st =>
    step (if info.2.1 then set_ fuel loc val st else (Except.ok (), st)) fun _ st =>
      step (match info.2.2.1 with
            | some succs => revokeSuccs loc succs st
            | none => (Except.ok (), st)) fun _ st =>
        let st :=
          if info.2.2.2 then
            { st with table := Table.insert st.table loc (Node.mut [] val) }
          else st
        let st := pushFrameSucc st
          { dirty := false, loc := loc, effect := Effect.allocate,
            dep := Dep.allocDep val }
        (Except.ok loc, checkDcg st)

/-- The edge-installation loop at the end of `produce`: each newly recorded
edge must be clean (else the engine panics on an illegal nominal side
effect), and its reverse predecessor link is installed on the target. -/
def installPreds : Loc → List Succ → Engine → EResult Unit
  | _, [], st => (Except.ok (), st)
  | src, s :: rest, st =>
    if s.dirty then (Except.error Err.brokenInvariant, st)
    else
      match st.table s.loc with
      | none => (Except.error (Err.danglingLoc s.loc), st)
      | some nd =>
        match nd.predsInsertN s.effect src with
        | none => (Except.error Err.brokenInvariant, st)
        | some nd2 =>
            installPreds src rest
              { st with table := Table.insert st.table s.loc nd2 }

/-- The tail of `force` on a located node: record an observe edge on the
active frame (if any) and return the value. -/
def forceFinish (loc : Loc) (result : Val) (st : Engine) : EResult Val :=
  let st := pushFrameSucc st
    { dirty := false, loc := loc, effect := Effect.observe,
      dep := Dep.producerDep result }
  (Except.ok result, checkDcg st)

mutual

/-- Run a user computation, re-entering the engine at each constructor. -/
def evalUComp (prog : Prog) : Nat → UComp → Engine → EResult Val
  | 0, _, st => (Except.error Err.outOfFuel, st)
  | fuel+1, c, st =>
    match c with
    | UComp.ret v => (Except.ok v, st)
    | UComp.forceThen a k =>
        step (force prog fuel a st) fun v st => evalUComp prog fuel (k v) st
    | UComp.cellThen nm v k =>
        step (cell fuel nm v st) fun l st => evalUComp prog fuel (k l) st
    | UComp.thunkThen idc pp arg k =>
        step (thunk prog fuel idc pp arg st) fun a st =>
          evalUComp prog fuel (k a) st
    | UComp.nsThen nm body k =>
        step (ns nm (evalUComp prog fuel body) st) fun v st =>
          evalUComp prog fuel (k v) st
termination_by structural fuel _ _ => fuel

/-- `force`: pure and mut nodes return their stored value; a computation
node with no cached result is produced; one with a cached result undergoes
change propagation first.  An observe edge is recorded on the active frame. -/
def force (prog : Prog) : Nat → Art → Engine → EResult Val
  | 0, _, st => (Except.error Err.outOfFuel, st)
  | fuel+1, a, st =>
    let st := checkDcg st
    match a with
    | Art.rc v => (Except.ok v, st)
    | Art.loc loc =>
      step (lookupAbs loc st) fun nd st =>
        match nd with
        | Node.pure v => forceFinish loc v st
        | Node.mut _ v => forceFinish loc v st
        | Node.comp _ _ _ none =>
            step (produce prog fuel loc st) fun v st => forceFinish loc v st
        | Node.comp _ _ _ (some res) =>
            step (changeProp prog fuel res loc st) fun _ st =>
              step (lookupAbs loc st) fun nd2 st =>
                match nd2 with
                | Node.comp _ _ _ (some r) => forceFinish loc r st
                | _ => (Except.error Err.brokenInvariant, st)
termination_by structural fuel _ _ => fuel

/-- `produce`: extract and clear the node's successors, revoke them, push a
fresh frame, run the producer on the node's path, pop and check the frame,
install reverse links for the new edges, then store them with the result. -/
def produce (prog : Prog) : Nat → Loc → Engine → EResult Val
  | 0, _, st => (Except.error Err.outOfFuel, st)
  | fuel+1, loc, st =>
    step (lookupAbs loc st) fun nd st =>
      match nd with
      | Node.comp preds succs pr res =>
        let st :=
          { st with table := Table.insert st.table loc (Node.comp preds [] pr res) }
        step (revokeSuccs loc succs st) fun _ st =>
          let st := { st with stack := { loc := loc, succs := [] } :: st.stack }
          let prevPath := st.path
          let st := { st with path := loc.path }
          step (lookupAbs loc st) fun nd2 st =>
            match nd2 with
            | Node.comp _ _ pr2 _ =>
              let st := { st with cnt := { st.cnt with eval := st.cnt.eval + 1 } }
              step (evalUComp prog fuel (prog pr2.progPt pr2.arg) st) fun res2 st =>
                let st := { st with path := prevPath }
                match st.stack with
                | [] => (Except.error Err.brokenInvariant, st)
                | frame :: rest =>
                  let st := { st with stack := rest }
                  if frame.loc = loc then
                    step (installPreds loc frame.succs st) fun _ st =>
                      step (lookupAbs loc st) fun nd3 st =>
                        match nd3 with
                        | Node.comp preds3 _ pr3 _ =>
                            (Except.ok res2,
                             { st with table := (Table.insert st.table loc
                                  (Node.comp preds3 frame.succs pr3 (some res2))) })
                        | _ => (Except.error Err.brokenInvariant, st)
                  else (Except.error Err.brokenInvariant, st)
            | _ => (Except.error Err.brokenInvariant, st)
      | _ => (Except.error Err.brokenInvariant, st)
termination_by structural fuel _ _ => fuel

/-- `ProducerDep::change_prop`: pure nodes never change; a mut node changed
iff its value differs from the recorded result; a computation node with a
cache runs `change_prop_comp` on a snapshot of its cache and successors, and
one without a cache is produced. -/
def changeProp (prog : Prog) : Nat → Val → Loc → Engine → EResult Bool
  | 0, _, _, st => (Except.error Err.outOfFuel, st)
  | fuel+1, depRes, loc, st =>
    step (lookupAbs loc st) fun nd st =>
      match nd with
      | Node.pure _ => (Except.ok false, st)
      | Node.mut _ v => (Except.ok (decide (v ≠ depRes)), st)
      | Node.comp _ succs _ res =>
        match res with
        | some r => changePropComp prog fuel depRes loc r succs st
        | none =>
          step (produce prog fuel loc st) fun r st =>
            (Except.ok (decide (depRes ≠ r)), st)
termination_by structural fuel _ _ _ => fuel

/-- `change_prop_comp`: count the invocation and walk the recorded edges. -/
def changePropComp (prog : Prog) :
    Nat → Val → Loc → Val → List Succ → Engine → EResult Bool
  | 0, _, _, _, _, st => (Except.error Err.outOfFuel, st)
  | fuel+1, depRes, loc, cache, succs, st =>
    let st := { st with cnt := { st.cnt with changeProp := st.cnt.changeProp + 1 } }
    cpLoop prog fuel depRes loc cache succs st
termination_by structural fuel _ _ _ _ _ => fuel

/-- The edge loop of `change_prop_comp`.  For each snapshot edge, in recorded
order: re-read its dirty bit from the store; if dirty, invoke its witness; a
changed witness re-produces `loc` and returns early with
`changed = (new_result ≠ this_dep.res)`; an unchanged witness cleans the
edge.  If the loop completes, `changed = (this_dep.res ≠ cache)`. -/
def cpLoop (prog : Prog) : Nat → Val → Loc → Val → List Succ → Engine → EResult Bool
  | _, depRes, _, cache, [], st => (Except.ok (decide (depRes ≠ cache)), st)
  | 0, _, _, _, _ :: _, st => (Except.error Err.outOfFuel, st)
  | fuel+1, depRes, loc, cache, s :: rest, st =>
    match getSuccOf st loc s.effect s.loc with
    | Except.error e => (Except.error e, st)
    | Except.ok cur =>
      if cur.dirty then
        step (depChangeProp prog fuel s.dep s.loc st) fun changed st =>
          if changed then
            step (produce prog fuel loc st) fun r st =>
              (Except.ok (decide (r ≠ depRes)), st)
          else
            step (setSuccDirty st loc s.effect s.loc false) fun _ st =>
              cpLoop prog fuel depRes loc cache rest st
      else cpLoop prog fuel depRes loc cache rest st
termination_by structural fuel _ _ _ _ _ => fuel

/-- `EngineDep::change_prop` dispatch over the witness kinds. -/
def depChangeProp (prog : Prog) : Nat → Dep → Loc → Engine → EResult Bool
  | 0, _, _, st => (Except.error Err.outOfFuel, st)
  | fuel+1, d, loc, st =>
    match d with
    | Dep.noDep => (Except.ok false, st)
    | Dep.allocDep _ => (Except.ok true, st)
    | Dep.producerDep r => changeProp prog fuel r loc st
termination_by structural fuel _ _ _ => fuel

/-- `thunk`: allocate a computation node under one of the three identity
modes (with `ignore_nominal_use_structural` demoting nominal to structural).
Nominal allocation over an existing computation node with the same program
point either reuses it (same argument) or replaces the argument, clears the
cache and dirties allocation predecessors; differing program points are a
`NominalCollision`. -/
def thunk (prog : Prog) : Nat → ArtIdChoice → ProgPt → Val → Engine → EResult Art
  | 0, _, _, _, st => (Except.error Err.outOfFuel, st)
  | fuel+1, idc, pp, arg, st =>
    let st := checkDcg st
    let idc2 :=
      match idc with
      | ArtIdChoice.nominal nm =>
          if st.flags.ignoreNominalUseStructural then ArtIdChoice.structural
          else ArtIdChoice.nominal nm
      | other => other
    match idc2 with
    | ArtIdChoice.eager =>
        step (evalUComp prog fuel (prog pp arg) st) fun v st =>
          (Except.ok (Art.rc v), st)
    | ArtIdChoice.structural =>
      let st := checkDcg st
      let loc : Loc := { path := currentPath st, id := ArtId.structural (myHashPpArg pp arg) }
      match st.table loc with
      | some _ => (Except.ok (Art.loc loc), st)
      | none =>
        let st := pushFrameSucc st
          { dirty := false, loc := loc, effect := Effect.allocate, dep := Dep.noDep }
        let st :=
          { st with table := (Table.insert st.table loc
                (Node.comp [] [] { progPt := pp, arg := arg } none)) }
        (Except.ok (Art.loc loc), checkDcg st)
    | ArtIdChoice.nominal nm =>
      let st := checkDcg st
      let loc : Loc := { path := currentPath st, id := ArtId.nominal nm }
      match st.table loc with
      | none =>
        let st := pushFrameSucc st
          { dirty := false, loc := loc, effect := Effect.allocate,
            dep := Dep.allocDep arg }
        let st :=
          { st with table := (Table.insert st.table loc
                (Node.comp [] [] { progPt := pp, arg := arg } none)) }
        (Except.ok (Art.loc loc), checkDcg st)
      | some (Node.pure _) => (Except.error Err.brokenInvariant, st)
      | some (Node.mut _ _) =>
        step (dirtyAlloc fuel loc st) fun _ st =>
          let st := pushFrameSucc st
            { dirty := false, loc := loc, effect := Effect.allocate,
              dep := Dep.allocDep arg }
          let st :=
            { st with table := (Table.insert st.table loc
                  (Node.comp [] [] { progPt := pp, arg := arg } none)) }
          (Except.ok (Art.loc loc), checkDcg st)
      | some (Node.comp preds succs pr _res) =>
        if pr.progPt = pp then
          if pr.arg = arg then
            let st := pushFrameSucc st
              { dirty := false, loc := loc, effect := Effect.allocate,
                dep := Dep.allocDep arg }
            (Except.ok (Art.loc loc), checkDcg st)
          else
            let st :=
              { st with table := (Table.insert st.table loc
                    (Node.comp preds succs { progPt := pp, arg := arg } none)) }
            step (dirtyAlloc fuel loc st) fun _ st =>
              let st := pushFrameSucc st
                { dirty := false, loc := loc, effect := Effect.allocate,
                  dep := Dep.allocDep arg }
              (Except.ok (Art.loc loc), checkDcg st)
        else (Except.error (Err.nominalCollision pr.progPt pp), st)
termination_by structural fuel _ _ _ _ => fuel

end

section StoreLemmas

theorem Table.insert_self (t : Table) (l : Loc) (n : Node) :
    Table.insert t l n l = some n := by
  simp [Table.insert]

theorem Table.insert_ne (t : Table) (l l2 : Loc) (n : Node) (h : l2 ≠ l) :
    Table.insert t l n l2 = t l2 := by
  simp [Table.insert, h]

theorem Table.insert_insert (t : Table) (l : Loc) (a b : Node) :
    Table.insert (Table.insert t l a) l b = Table.insert t l b := by
  funext l2
  by_cases h : l2 = l <;> simp [Table.insert, h]

theorem Table.insert_of_lookup (t : Table) (l : Loc) (n : Node) (h : t l = some n) :
    Table.insert t l n = t := by
  funext l2
  by_cases h2 : l2 = l
  · subst h2; rw [Table.insert_self, h]
  · rw [Table.insert_ne _ _ _ _ h2]

end StoreLemmas

section SuccLemmas

/-- An edge with its dirty bit cleared. -/
def succClean (s : Succ) : Succ := { s with dirty := false }

/-- A successor list with every dirty bit cleared. -/
def cleanList (l : List Succ) : List Succ := l.map succClean

/-- The `(effect, target)` keys of a successor list are pairwise distinct
(`get_succ_mut` resolves edges by their first key match, so this is the
regime in which per-edge reads and writes are unambiguous). -/
def SuccKeysNodup (l : List Succ) : Prop :=
  l.Pairwise (fun a b => ¬(a.effect = b.effect ∧ a.loc = b.loc))

theorem succClean_eq_self (s : Succ) (h : s.dirty = false) : succClean s = s := by
  cases s
  simp only [succClean]
  simp_all

theorem cleanList_dirty (l : List Succ) : ∀ s ∈ cleanList l, s.dirty = false := by
  intro s hs
  obtain ⟨a, _, rfl⟩ := List.mem_map.mp hs
  rfl

theorem findSucc_cons_self (s : Succ) (l : List Succ) :
    findSucc (s :: l) s.effect s.loc = some s := by
  simp [findSucc]

theorem findSucc_append_skip (l1 l2 : List Succ) (eff : Effect) (tgt : Loc)
    (h : ∀ x ∈ l1, ¬(x.effect = eff ∧ x.loc = tgt)) :
    findSucc (l1 ++ l2) eff tgt = findSucc l2 eff tgt := by
  induction l1 with
  | nil => rfl
  | cons a l ih =>
    have ha := h a (List.mem_cons_self a l)
    simp only [List.cons_append, findSucc, if_neg ha]
    exact ih fun x hx => h x (List.mem_cons_of_mem _ hx)

theorem setDirtyList_cons_self (s : Succ) (l : List Succ) (b : Bool) :
    setDirtyList (s :: l) s.effect s.loc b = some ({ s with dirty := b } :: l) := by
  simp [setDirtyList]

theorem setDirtyList_append_skip (l1 l2 : List Succ) (eff : Effect) (tgt : Loc)
    (b : Bool) (h : ∀ x ∈ l1, ¬(x.effect = eff ∧ x.loc = tgt)) :
    setDirtyList (l1 ++ l2) eff tgt b
      = (setDirtyList l2 eff tgt b).map (fun r => l1 ++ r) := by
  induction l1 with
  | nil =>
    simp only [List.nil_append]
    cases h2 : setDirtyList l2 eff tgt b <;> simp [h2]
  | cons a l ih =>
    have ha := h a (List.mem_cons_self a l)
    have ih2 := ih fun x hx => h x (List.mem_cons_of_mem _ hx)
    simp only [List.cons_append, setDirtyList, if_neg ha, ih2]
    cases h2 : setDirtyList l2 eff tgt b <;> simp [ih2, h2]

theorem keysNodup_head_skip {done L : List Succ} {p : Succ}
    (h : SuccKeysNodup (done ++ p :: L)) :
    ∀ d ∈ done, ¬(d.effect = p.effect ∧ d.loc = p.loc) := by
  intro d hd
  rw [SuccKeysNodup, List.pairwise_append] at h
  exact h.2.2 d hd p (List.mem_cons_self p L)

theorem keysNodup_replace {done L : List Succ} {p p2 : Succ}
    (he : p2.effect = p.effect) (hl : p2.loc = p.loc)
    (h : SuccKeysNodup (done ++ p :: L)) : SuccKeysNodup (done ++ p2 :: L) := by
  rw [SuccKeysNodup, List.pairwise_append] at h ⊢
  obtain ⟨h1, h2, h3⟩ := h
  rw [List.pairwise_cons] at h2 ⊢
  refine ⟨h1, ⟨fun b hb => ?_, h2.2⟩, fun a ha b hb => ?_⟩
  · rw [he, hl]; exact h2.1 b hb
  · rcases List.mem_cons.mp hb with rfl | hb2
    · rw [he, hl]; exact h3 a ha p (List.mem_cons_self p L)
    · exact h3 a ha b (List.mem_cons_of_mem _ hb2)

end SuccLemmas

section WitnessClasses

/-- A leaf edge whose witness reports no change without touching the state:
either `NoDependency`, or a `ProducerDep` recording exactly the current value
of a mutable cell. -/
def LeafUnchanged (st : Engine) (s : Succ) : Prop :=
  s.dep = Dep.noDep ∨
  ∃ ps v, st.table s.loc = some (Node.mut ps v) ∧ s.dep = Dep.producerDep v

/-- A leaf edge whose witness reports a change without touching the state:
either an `AllocDependency` (always conservatively changed), or a
`ProducerDep` whose recorded value differs from the target cell's value. -/
def LeafChanged (st : Engine) (s : Succ) : Prop :=
  (∃ v, s.dep = Dep.allocDep v) ∨
  ∃ ps v r, st.table s.loc = some (Node.mut ps v) ∧ s.dep = Dep.producerDep r ∧ v ≠ r

theorem depChangeProp_unchanged (prog : Prog) (fuel : Nat) (st : Engine)
    (s : Succ) (h : LeafUnchanged st s) :
    depChangeProp prog (fuel+2) s.dep s.loc st = (Except.ok false, st) := by
  rcases h with hd | ⟨ps, v, hm, hd⟩
  · rw [hd]; rfl
  · rw [hd]
    simp [depChangeProp, changeProp, lookupAbs, hm, step]

theorem depChangeProp_changed (prog : Prog) (fuel : Nat) (st : Engine)
    (s : Succ) (h : LeafChanged st s) :
    depChangeProp prog (fuel+2) s.dep s.loc st = (Except.ok true, st) := by
  rcases h with ⟨v, hd⟩ | ⟨ps, v, r, hm, hd, hne⟩
  · rw [hd]; rfl
  · rw [hd]
    simp [depChangeProp, changeProp, lookupAbs, hm, step, hne]

theorem leafUnchanged_insert (st : Engine) (loc : Loc) (nd : Node) (s : Succ)
    (a : List (Effect × Loc)) (b : List Succ) (c : Producer) (d : Option Val)
    (hcomp : st.table loc = some (Node.comp a b c d))
    (h : LeafUnchanged st s) :
    LeafUnchanged { st with table := Table.insert st.table loc nd } s := by
  rcases h with hd | ⟨ps, v, hm, hd⟩
  · exact Or.inl hd
  · refine Or.inr ⟨ps, v, ?_, hd⟩
    have hne : s.loc ≠ loc := by
      intro he
      rw [he, hcomp] at hm
      cases hm
    show Table.insert st.table loc nd s.loc = some (Node.mut ps v)
    rw [Table.insert_ne _ _ _ _ hne, hm]

end WitnessClasses

section ExecLemmas

theorem force_cached_empty (prog : Prog) (fuel : Nat) (st : Engine) (loc : Loc)
    (preds : List (Effect × Loc)) (pr : Producer) (r : Val)
    (hstack : st.stack = [])
    (hnode : st.table loc = some (Node.comp preds [] pr (some r))) :
    force prog (fuel+3) (Art.loc loc) st
      = (Except.ok r,
         { st with cnt := { st.cnt with changeProp := st.cnt.changeProp + 1 } }) := by
  simp only [force, checkDcg, lookupAbs, hnode, step, changeProp, changePropComp,
    cpLoop, forceFinish, pushFrameSucc, hstack]

theorem force_produce_pure (prog : Prog) (fuel : Nat) (st : Engine) (loc : Loc)
    (preds : List (Effect × Loc)) (pr : Producer) (f : Val → Val)
    (hprog : prog pr.progPt = fun a => UComp.ret (f a))
    (hstack : st.stack = [])
    (hnode : st.table loc = some (Node.comp preds [] pr none)) :
    force prog (fuel+3) (Art.loc loc) st
      = (Except.ok (f pr.arg),
         { st with
             table := Table.insert st.table loc (Node.comp preds [] pr (some (f pr.arg))),
             cnt := { st.cnt with eval := st.cnt.eval + 1 } }) := by
  simp only [force, checkDcg, lookupAbs, hnode, step, produce, revokeSuccs,
    Table.insert_self, hprog, evalUComp, installPreds, forceFinish, pushFrameSucc,
    hstack, Table.insert_insert, if_pos]

theorem thunk_nominal_fresh (prog : Prog) (fuel : Nat) (st : Engine) (nm : Name)
    (pp : ProgPt) (x : Val)
    (hflag : st.flags.ignoreNominalUseStructural = false)
    (hstack : st.stack = [])
    (hfresh : st.table { path := st.path, id := ArtId.nominal nm } = none) :
    thunk prog (fuel+1) (ArtIdChoice.nominal nm) pp x st
      = (Except.ok (Art.loc { path := st.path, id := ArtId.nominal nm }),
         { st with
             table := Table.insert st.table { path := st.path, id := ArtId.nominal nm }
               (Node.comp [] [] { progPt := pp, arg := x } none) }) := by
  simp only [thunk, checkDcg, currentPath, hflag, hfresh, pushFrameSucc, hstack,
    Bool.false_eq_true, if_false]

end ExecLemmas

section ClaimC3

/-- C3: `set(cell, value)` succeeds only when the frame stack is empty; if
any producer is executing (the stack is non-empty), `set` fails with
`MutationDuringEvaluation` and does not modify the cell: the returned engine
state is exactly the input state. -/
theorem c3_set_requires_empty_stack (fuel : Nat) (cellLoc : Loc) (val : Val)
    (st : Engine) (hstack : st.stack ≠ []) :
    set fuel cellLoc val st = (Except.error Err.mutationDuringEvaluation, st) := by
  obtain ⟨f, fs, hcons⟩ : ∃ f fs, st.stack = f :: fs := by
    cases h : st.stack with
    | nil => exact absurd h hstack
    | cons f fs => exact ⟨f, fs, rfl⟩
  simp [set, checkDcg, hcons]

/-- Witness for C3 at a concrete engine whose stack holds one frame. -/
theorem c3_set_requires_empty_stack_witness :
    let st :=
      { Engine.new { ignoreNominalUseStructural := false, checkDcgIsWf := false,
                     writeDcg := false } with
        stack := [{ loc := rootLoc, succs := [] }] }
    set 5 rootLoc 3 st = (Except.error Err.mutationDuringEvaluation, st) :=
  c3_set_requires_empty_stack 5 rootLoc 3 _ (by decide)

end ClaimC3

section ClaimC6

/-- C6: calling `thunk` with nominal identity at a location already occupied
by a `CompNode` whose producer's program point differs from the new one fails
with `NominalCollision`, reporting both program points (the old one and the
new one, in that order). -/
theorem c6_nominal_collision (prog : Prog) (fuel : Nat) (st : Engine)
    (nm : Name) (pp arg : Val) (preds : List (Effect × Loc)) (succs : List Succ)
    (pr : Producer) (res : Option Val)
    (hflag : st.flags.ignoreNominalUseStructural = false)
    (hnode : st.table { path := st.path, id := ArtId.nominal nm }
      = some (Node.comp preds succs pr res))
    (hpp : pr.progPt ≠ pp) :
    thunk prog (fuel+1) (ArtIdChoice.nominal nm) pp arg st
      = (Except.error (Err.nominalCollision pr.progPt pp), st) := by
  simp only [thunk, checkDcg, currentPath, hflag, hnode, Bool.false_eq_true,
    if_false, if_neg hpp]

/-- Witness for C6: two program points 1 and 2 colliding on the name "n". -/
theorem c6_nominal_collision_witness :
    let nm := nameOfString "n"
    let st :=
      { Engine.new { ignoreNominalUseStructural := false, checkDcgIsWf := false,
                     writeDcg := false } with
        table := Table.insert Table.empty { path := Path.empty, id := ArtId.nominal nm }
          (Node.comp [] [] { progPt := 1, arg := 0 } none) }
    thunk (fun _ _ => UComp.ret 0) 5 (ArtIdChoice.nominal nm) 2 0 st
      = (Except.error (Err.nominalCollision 1 2), st) :=
  c6_nominal_collision _ 4 _ _ 2 0 [] [] { progPt := 1, arg := 0 } none
    (by decide) (by decide) (by decide)

end ClaimC6

theorem pushFrameSucc_table (st : Engine) (e : Succ) :
    (pushFrameSucc st e).table = st.table := by
  cases h : st.stack <;> simp [pushFrameSucc, h]

theorem pushFrameSucc_path (st : Engine) (e : Succ) :
    (pushFrameSucc st e).path = st.path := by
  cases h : st.stack <;> simp [pushFrameSucc, h]

theorem pushFrameSucc_flags (st : Engine) (e : Succ) :
    (pushFrameSucc st e).flags = st.flags := by
  cases h : st.stack <;> simp [pushFrameSucc, h]

theorem pushFrameSucc_cnt (st : Engine) (e : Succ) :
    (pushFrameSucc st e).cnt = st.cnt := by
  cases h : st.stack <;> simp [pushFrameSucc, h]

section ClaimC7

/-- C7: under structural identity, two calls of `thunk(Structural, pp, f, x)`
with equal program point and equal argument at the same current path return
handles to the same location, and the second call does not insert a new node
or modify the existing one: it returns the existing handle with the engine
state completely unchanged (so a cached result is reused). -/
theorem c7_structural_idempotent (prog : Prog) (fuel fuel2 : Nat)
    (pp arg : Val) (st : Engine) :
    ∃ st1,
      thunk prog (fuel+1) ArtIdChoice.structural pp arg st
        = (Except.ok (Art.loc { path := st.path, id := ArtId.structural (myHashPpArg pp arg) }), st1)
      ∧ thunk prog (fuel2+1) ArtIdChoice.structural pp arg st1
        = (Except.ok (Art.loc { path := st.path, id := ArtId.structural (myHashPpArg pp arg) }), st1) := by
  cases hl : st.table { path := st.path, id := ArtId.structural (myHashPpArg pp arg) } with
  | some nd =>
    exact ⟨st, by simp only [thunk, checkDcg, currentPath, hl],
               by simp only [thunk, checkDcg, currentPath, hl]⟩
  | none =>
    refine ⟨{ pushFrameSucc st
        { dirty := false,
          loc := { path := st.path, id := ArtId.structural (myHashPpArg pp arg) },
          effect := Effect.allocate, dep := Dep.noDep } with
        table := Table.insert st.table
          { path := st.path, id := ArtId.structural (myHashPpArg pp arg) }
          (Node.comp [] [] { progPt := pp, arg := arg } none) }, ?_, ?_⟩
    · simp only [thunk, checkDcg, currentPath, hl, pushFrameSucc_table]
    · simp only [thunk, checkDcg, currentPath, pushFrameSucc_path, Table.insert_self]

end ClaimC7

section ChangePropLemmas

theorem leafChanged_insert (st : Engine) (loc : Loc) (nd : Node) (s : Succ)
    (a : List (Effect × Loc)) (b : List Succ) (c : Producer) (d : Option Val)
    (hcomp : st.table loc = some (Node.comp a b c d))
    (h : LeafChanged st s) :
    LeafChanged { st with table := Table.insert st.table loc nd } s := by
  rcases h with ⟨v, hd⟩ | ⟨ps, v, r, hm, hd, hne⟩
  · exact Or.inl ⟨v, hd⟩
  · refine Or.inr ⟨ps, v, r, ?_, hd, hne⟩
    have hne2 : s.loc ≠ loc := by
      intro he
      rw [he, hcomp] at hm
      cases hm
    show Table.insert st.table loc nd s.loc = some (Node.mut ps v)
    rw [Table.insert_ne _ _ _ _ hne2, hm]

theorem cleanList_keys_skip (pre : List Succ) (eff : Effect) (tgt : Loc)
    (h : ∀ d ∈ pre, ¬(d.effect = eff ∧ d.loc = tgt)) :
    ∀ x ∈ cleanList pre, ¬(x.effect = eff ∧ x.loc = tgt) := by
  intro x hx
  obtain ⟨a, ha, rfl⟩ := List.mem_map.mp hx
  exact h a ha

/-- The heart of claims about `change_prop_comp`: walking a prefix of leaf
edges whose witnesses report no change cleans exactly the dirty bits of that
prefix (resolved first-match in the stored list, which is unambiguous under
distinct keys) and continues with the remaining edges. -/
theorem cpLoop_clean_prefix (prog : Prog) (loc : Loc) (depRes cache : Val)
    (pre : List Succ) :
    ∀ (fuel : Nat) (done rest : List Succ) (st : Engine)
      (preds : List (Effect × Loc)) (pr : Producer),
      pre.length + 2 ≤ fuel →
      st.table loc = some (Node.comp preds (done ++ (pre ++ rest)) pr (some cache)) →
      SuccKeysNodup (done ++ (pre ++ rest)) →
      (∀ p ∈ pre, LeafUnchanged st p) →
      cpLoop prog fuel depRes loc cache (pre ++ rest) st
        = cpLoop prog (fuel - pre.length) depRes loc cache rest
            { st with table := (Table.insert st.table loc
                (Node.comp preds (done ++ (cleanList pre ++ rest)) pr (some cache))) } := by
  induction pre with
  | nil =>
    intro fuel done rest st preds pr hfuel hnode hnd hpre
    simp only [cleanList, List.map_nil, List.nil_append, List.length_nil,
      Nat.sub_zero]
    simp only [List.nil_append] at hnode
    rw [Table.insert_of_lookup _ _ _ hnode]
  | cons p pre2 ih =>
    intro fuel done rest st preds pr hfuel hnode hnd hpre
    simp only [List.cons_append] at hnode hnd ⊢
    obtain ⟨f, rfl⟩ : ∃ f, fuel = f + 1 := ⟨fuel - 1, by omega⟩
    have hlen : pre2.length + 2 ≤ f := by
      simp only [List.length_cons] at hfuel
      omega
    have hdone : ∀ d ∈ done, ¬(d.effect = p.effect ∧ d.loc = p.loc) := by
      intro d hd
      have h2 := hnd
      rw [SuccKeysNodup, List.pairwise_append] at h2
      exact h2.2.2 d hd p (List.mem_cons_self p (pre2 ++ rest))
    have hfind : findSucc (done ++ (p :: (pre2 ++ rest))) p.effect p.loc = some p := by
      rw [findSucc_append_skip _ _ _ _ hdone, findSucc_cons_self]
    have hgs : getSuccOf st loc p.effect p.loc = Except.ok p := by
      simp only [getSuccOf, hnode, Node.succsOf]
      rw [hfind]
    simp only [cpLoop, hgs]
    by_cases hd : p.dirty = true
    · -- the edge is dirty; its witness reports no change and it is cleaned
      obtain ⟨g, rfl⟩ : ∃ g, f = g + 2 := ⟨f - 2, by omega⟩
      have hw := depChangeProp_unchanged prog g st p
        (hpre p (List.mem_cons_self p pre2))
      rw [hd]
      simp only [if_true, hw, step, Bool.false_eq_true, if_false, List.append_eq]
      have hset : setSuccDirty st loc p.effect p.loc false
          = (Except.ok (),
             { st with table := (Table.insert st.table loc
                 (Node.comp preds (done ++ (succClean p :: (pre2 ++ rest))) pr
                   (some cache))) }) := by
        simp only [setSuccDirty, hnode]
        rw [setDirtyList_append_skip _ _ _ _ _ hdone, setDirtyList_cons_self]
        rfl
      rw [hset]
      simp only [step, Bool.false_eq_true, if_false, List.append_eq]
      have hnode1 :
          ({ st with table := (Table.insert st.table loc
              (Node.comp preds (done ++ (succClean p :: (pre2 ++ rest))) pr
                (some cache))) } : Engine).table loc
            = some (Node.comp preds ((done ++ [succClean p]) ++ (pre2 ++ rest)) pr
                (some cache)) := by
        show Table.insert st.table loc _ loc = _
        rw [Table.insert_self]
        simp only [List.append_assoc, List.singleton_append]
      have hnd1 : SuccKeysNodup ((done ++ [succClean p]) ++ (pre2 ++ rest)) := by
        simp only [List.append_assoc, List.singleton_append]
        exact @keysNodup_replace done (pre2 ++ rest) p (succClean p) rfl rfl hnd
      have hpre1 : ∀ q ∈ pre2,
          LeafUnchanged { st with table := (Table.insert st.table loc
              (Node.comp preds (done ++ (succClean p :: (pre2 ++ rest))) pr
                (some cache))) } q := by
        intro q hq
        exact leafUnchanged_insert st loc _ q _ _ _ _ hnode
          (hpre q (List.mem_cons_of_mem _ hq))
      rw [ih (g+2) (done ++ [succClean p]) rest _ preds pr hlen hnode1 hnd1 hpre1]
      have harith : g + 2 + 1 - (p :: pre2).length = g + 2 - pre2.length := by
        simp only [List.length_cons]
        omega
      rw [harith]
      simp only [Table.insert_insert, cleanList, List.map_cons, List.append_assoc,
        List.singleton_append, List.cons_append, List.nil_append]
    · -- the edge is already clean; it is skipped
      have hd2 : p.dirty = false := by
        cases hp : p.dirty
        · rfl
        · exact absurd hp hd
      rw [hd2]
      simp only [Bool.false_eq_true, if_false, List.append_eq]
      have hnode1 : st.table loc
          = some (Node.comp preds ((done ++ [p]) ++ (pre2 ++ rest)) pr (some cache)) := by
        rw [hnode]
        simp only [List.append_assoc, List.singleton_append]
      have hnd1 : SuccKeysNodup ((done ++ [p]) ++ (pre2 ++ rest)) := by
        simp only [List.append_assoc, List.singleton_append]
        exact hnd
      have hpre1 : ∀ q ∈ pre2, LeafUnchanged st q := fun q hq =>
        hpre q (List.mem_cons_of_mem _ hq)
      rw [ih f (done ++ [p]) rest st preds pr hlen hnode1 hnd1 hpre1]
      have harith : f + 1 - (p :: pre2).length = f - pre2.length := by
        simp only [List.length_cons]
        omega
      rw [harith]
      have hcp : succClean p = p := succClean_eq_self p hd2
      simp only [cleanList, List.map_cons, hcp, List.append_assoc,
        List.singleton_append, List.cons_append, List.nil_append]

/-- A single loop step of `change_prop_comp` at a dirty head edge whose
witness reports a change: `loc` is re-produced once and the loop returns
early with `changed = (new_result ≠ this_dep.res)`; the remaining edges are
never touched. -/
theorem cpLoop_head_changed (prog : Prog) (g : Nat) (depRes cache : Val)
    (loc : Loc) (s : Succ) (post : List Succ) (st : Engine)
    (hgs : getSuccOf st loc s.effect s.loc = Except.ok s)
    (hs : s.dirty = true)
    (hch : LeafChanged st s) :
    cpLoop prog (g+3) depRes loc cache (s :: post) st
      = step (produce prog (g+2) loc st)
          (fun r st2 => (Except.ok (decide (r ≠ depRes)), st2)) := by
  simp only [cpLoop, hgs, hs, if_true, depChangeProp_changed prog g st s hch, step]

end ChangePropLemmas

section ClaimC2

/-- C2: when change propagation on a computational node `loc` with cached
result `prev` (so the recorded dependency result equals the cache) cleans
every dirty outgoing edge without any successor reporting a real change
(every edge is a leaf witness reporting no change), it reports
`changed = false`, leaves the node's cached result unchanged, and on
completion no edge in `loc`'s successor list is still marked dirty.  Edge
keys are assumed distinct so that first-match edge resolution is
unambiguous. -/
theorem c2_change_prop_clean_reports_unchanged (prog : Prog) (fuel : Nat)
    (st : Engine) (loc : Loc) (preds : List (Effect × Loc)) (succs : List Succ)
    (pr : Producer) (prev : Val)
    (hfuel : succs.length + 2 ≤ fuel)
    (hnode : st.table loc = some (Node.comp preds succs pr (some prev)))
    (hnd : SuccKeysNodup succs)
    (hwit : ∀ s ∈ succs, LeafUnchanged st s) :
    changePropComp prog (fuel+1) prev loc prev succs st
      = (Except.ok false,
         { st with
             table := (Table.insert st.table loc
               (Node.comp preds (cleanList succs) pr (some prev))),
             cnt := { st.cnt with changeProp := st.cnt.changeProp + 1 } })
    ∧ ∀ s ∈ cleanList succs, s.dirty = false := by
  refine ⟨?_, cleanList_dirty succs⟩
  simp only [changePropComp]
  have h := cpLoop_clean_prefix prog loc prev prev succs fuel [] []
    { st with cnt := { st.cnt with changeProp := st.cnt.changeProp + 1 } }
    preds pr hfuel (by simpa using hnode) (by simpa using hnd)
    (fun s hs => hwit s hs)
  simp only [List.append_nil, List.nil_append] at h
  rw [h]
  have hdec : (decide (prev ≠ prev)) = false := by simp
  simp only [cpLoop, hdec]

end ClaimC2

section ClaimC4

/-- C4: change propagation examines a node's successor edges in recorded
order; with `pre ++ s :: post` the recorded list, every edge of `pre` a leaf
witness reporting no change (so the traversal cleans and passes them), and
`s` dirty with a witness reporting a change, the whole call is equal to
re-producing `loc` exactly once from the state in which only the `pre`
edges were cleaned, reporting `changed = (new_result ≠ prev)`; in
particular the edges of `post` are never examined and `produce` runs once. -/
theorem c4_first_changed_edge_reproduces (prog : Prog) (fuel : Nat)
    (st : Engine) (loc : Loc) (preds : List (Effect × Loc))
    (pre post : List Succ) (s : Succ) (pr : Producer) (prev : Val)
    (hfuel : pre.length + 3 ≤ fuel)
    (hnode : st.table loc = some (Node.comp preds (pre ++ s :: post) pr (some prev)))
    (hnd : SuccKeysNodup (pre ++ s :: post))
    (hpre : ∀ p ∈ pre, LeafUnchanged st p)
    (hs : s.dirty = true)
    (hchanged : LeafChanged st s) :
    changePropComp prog (fuel+1) prev loc prev (pre ++ s :: post) st
      = step (produce prog (fuel - (pre.length + 1)) loc
          { st with
              table := (Table.insert st.table loc
                (Node.comp preds (cleanList pre ++ s :: post) pr (some prev))),
              cnt := { st.cnt with changeProp := st.cnt.changeProp + 1 } })
          (fun r st2 => (Except.ok (decide (r ≠ prev)), st2)) := by
  simp only [changePropComp]
  have h := cpLoop_clean_prefix prog loc prev prev pre fuel [] (s :: post)
    { st with cnt := { st.cnt with changeProp := st.cnt.changeProp + 1 } }
    preds pr (by omega) (by simpa using hnode) (by simpa using hnd)
    (fun p hp => hpre p hp)
  simp only [List.nil_append] at h
  rw [h]
  obtain ⟨g, hm⟩ : ∃ g, fuel - pre.length = g + 3 := ⟨fuel - pre.length - 3, by omega⟩
  have hm2 : fuel - (pre.length + 1) = g + 2 := by omega
  rw [hm, hm2]
  have hdone : ∀ d ∈ pre, ¬(d.effect = s.effect ∧ d.loc = s.loc) :=
    keysNodup_head_skip hnd
  have hfind : findSucc (cleanList pre ++ (s :: post)) s.effect s.loc = some s := by
    rw [findSucc_append_skip _ _ _ _ (cleanList_keys_skip pre _ _ hdone),
      findSucc_cons_self]
  have hgs : getSuccOf
      { st with
          table := (Table.insert st.table loc
            (Node.comp preds (cleanList pre ++ s :: post) pr (some prev))),
          cnt := { st.cnt with changeProp := st.cnt.changeProp + 1 } }
      loc s.effect s.loc = Except.ok s := by
    simp only [getSuccOf, Table.insert_self, Node.succsOf]
    rw [hfind]
  have hch : LeafChanged
      { st with
          table := (Table.insert st.table loc
            (Node.comp preds (cleanList pre ++ s :: post) pr (some prev))),
          cnt := { st.cnt with changeProp := st.cnt.changeProp + 1 } } s :=
    leafChanged_insert
      { st with cnt := { st.cnt with changeProp := st.cnt.changeProp + 1 } }
      loc _ s _ _ _ _ hnode hchanged
  exact cpLoop_head_changed prog g prev prev loc s post _ hgs hs hch

end ClaimC4

section ClaimC1

/-- Iterated `force` of a location: the engine state after `k` successive
top-level forces. -/
def forceIterSt (prog : Prog) (fuel : Nat) (l : Loc) : Nat → Engine → Engine
  | 0, st => st
  | k+1, st => (force prog fuel (Art.loc l) (forceIterSt prog fuel l k st)).2

/-- Once a computation node holds a cached result and no outgoing edges,
iterated forcing returns the cached value for ever and never evaluates. -/
theorem forceIter_frozen (prog : Prog) (fuel : Nat) (loc : Loc)
    (preds : List (Effect × Loc)) (pr : Producer) (v : Val) :
    ∀ (k : Nat) (s : Engine), s.stack = [] →
      s.table loc = some (Node.comp preds [] pr (some v)) →
      (forceIterSt prog (fuel+3) loc k s).stack = []
      ∧ (forceIterSt prog (fuel+3) loc k s).table loc
          = some (Node.comp preds [] pr (some v))
      ∧ (forceIterSt prog (fuel+3) loc k s).cnt.eval = s.cnt.eval
      ∧ (force prog (fuel+3) (Art.loc loc) (forceIterSt prog (fuel+3) loc k s)).1
          = Except.ok v := by
  intro k
  induction k with
  | zero =>
    intro s h1 h2
    refine ⟨h1, h2, rfl, ?_⟩
    simp only [forceIterSt]
    rw [force_cached_empty prog fuel s loc preds pr v h1 h2]
  | succ k ih =>
    intro s h1 h2
    obtain ⟨ha, hb, hc, _hd⟩ := ih s h1 h2
    have hf := force_cached_empty prog fuel _ loc preds pr v ha hb
    have hstk : (forceIterSt prog (fuel+3) loc (k+1) s).stack = [] := by
      rw [forceIterSt, hf]; exact ha
    have htab : (forceIterSt prog (fuel+3) loc (k+1) s).table loc
        = some (Node.comp preds [] pr (some v)) := by
      rw [forceIterSt, hf]; exact hb
    have hev : (forceIterSt prog (fuel+3) loc (k+1) s).cnt.eval = s.cnt.eval := by
      rw [forceIterSt, hf]; exact hc
    refine ⟨hstk, htab, hev, ?_⟩
    rw [force_cached_empty prog fuel _ loc preds pr v hstk htab]

/-- C1: for any pure computation `f` and input `x`, repeated force of
`thunk(Nominal(nm), f, x)` (a fresh nominal thunk whose producer is the pure
function `f`) with no intervening mutation runs the producer at most once:
the first force evaluates it exactly once (the `eval` counter rises by one),
and every later force returns the cached result `f x` without invoking the
producer again (the `eval` counter never changes again). -/
theorem c1_memoization_at_most_one_eval (prog : Prog) (f : Val → Val)
    (pp : ProgPt) (nm : Name) (x : Val) (fuel : Nat) (st : Engine)
    (hprog : prog pp = fun a => UComp.ret (f a))
    (hflag : st.flags.ignoreNominalUseStructural = false)
    (hstack : st.stack = [])
    (hfresh : st.table { path := st.path, id := ArtId.nominal nm } = none) :
    ∃ st1 st2,
      thunk prog (fuel+1) (ArtIdChoice.nominal nm) pp x st
        = (Except.ok (Art.loc { path := st.path, id := ArtId.nominal nm }), st1)
      ∧ force prog (fuel+3) (Art.loc { path := st.path, id := ArtId.nominal nm }) st1
        = (Except.ok (f x), st2)
      ∧ st2.cnt.eval = st.cnt.eval + 1
      ∧ ∀ k : Nat,
          (forceIterSt prog (fuel+3) { path := st.path, id := ArtId.nominal nm } k st2).cnt.eval
            = st2.cnt.eval
          ∧ (force prog (fuel+3) (Art.loc { path := st.path, id := ArtId.nominal nm })
              (forceIterSt prog (fuel+3) { path := st.path, id := ArtId.nominal nm } k st2)).1
            = Except.ok (f x) := by
  have h1 := thunk_nominal_fresh prog fuel st nm pp x hflag hstack hfresh
  have hnode1 :
      ({ st with table := (Table.insert st.table
          { path := st.path, id := ArtId.nominal nm }
          (Node.comp [] [] { progPt := pp, arg := x } none)) } : Engine).table
        { path := st.path, id := ArtId.nominal nm }
        = some (Node.comp [] [] { progPt := pp, arg := x } none) :=
    Table.insert_self _ _ _
  have hstk1 : ({ st with table := (Table.insert st.table
      { path := st.path, id := ArtId.nominal nm }
      (Node.comp [] [] { progPt := pp, arg := x } none)) } : Engine).stack = [] :=
    hstack
  have h2 := force_produce_pure prog fuel _
    { path := st.path, id := ArtId.nominal nm } [] { progPt := pp, arg := x } f
    hprog hstk1 hnode1
  refine ⟨_, _, h1, h2, by simp, ?_⟩
  intro k
  show (forceIterSt prog (fuel+3) { path := st.path, id := ArtId.nominal nm } k
        { st with
            table := (Table.insert
              (Table.insert st.table { path := st.path, id := ArtId.nominal nm }
                (Node.comp [] [] { progPt := pp, arg := x } none))
              { path := st.path, id := ArtId.nominal nm }
              (Node.comp [] [] { progPt := pp, arg := x } (some (f x)))),
            cnt := { st.cnt with eval := st.cnt.eval + 1 } }).cnt.eval
      = ({ st with
            table := (Table.insert
              (Table.insert st.table { path := st.path, id := ArtId.nominal nm }
                (Node.comp [] [] { progPt := pp, arg := x } none))
              { path := st.path, id := ArtId.nominal nm }
              (Node.comp [] [] { progPt := pp, arg := x } (some (f x)))),
            cnt := { st.cnt with eval := st.cnt.eval + 1 } } : Engine).cnt.eval
    ∧ (force prog (fuel+3) (Art.loc { path := st.path, id := ArtId.nominal nm })
        (forceIterSt prog (fuel+3) { path := st.path, id := ArtId.nominal nm } k
          { st with
              table := (Table.insert
                (Table.insert st.table { path := st.path, id := ArtId.nominal nm }
                  (Node.comp [] [] { progPt := pp, arg := x } none))
                { path := st.path, id := ArtId.nominal nm }
                (Node.comp [] [] { progPt := pp, arg := x } (some (f x)))),
              cnt := { st.cnt with eval := st.cnt.eval + 1 } })).1
      = Except.ok (f x)
  have hstk2 : ({ st with
      table := (Table.insert
        (Table.insert st.table { path := st.path, id := ArtId.nominal nm }
          (Node.comp [] [] { progPt := pp, arg := x } none))
        { path := st.path, id := ArtId.nominal nm }
        (Node.comp [] [] { progPt := pp, arg := x } (some (f x)))),
      cnt := { st.cnt with eval := st.cnt.eval + 1 } } : Engine).stack = [] := hstack
  have hnode2 : ({ st with
      table := (Table.insert
        (Table.insert st.table { path := st.path, id := ArtId.nominal nm }
          (Node.comp [] [] { progPt := pp, arg := x } none))
        { path := st.path, id := ArtId.nominal nm }
        (Node.comp [] [] { progPt := pp, arg := x } (some (f x)))),
      cnt := { st.cnt with eval := st.cnt.eval + 1 } } : Engine).table
      { path := st.path, id := ArtId.nominal nm }
      = some (Node.comp [] [] { progPt := pp, arg := x } (some (f x))) := by
    show (Table.insert _ _ _) _ = _
    rw [Table.insert_insert, Table.insert_self]
  have h3 := forceIter_frozen prog fuel { path := st.path, id := ArtId.nominal nm }
    [] { progPt := pp, arg := x } (f x) k _ hstk2 hnode2
  exact ⟨h3.2.2.1, h3.2.2.2⟩

end ClaimC1

section WitnessObjects

/-- A sample program environment: every producer is the pure successor. -/
def progW : Prog := fun _pp a => UComp.ret (a + 1)

def flagsW : Flags :=
  { ignoreNominalUseStructural := false, checkDcgIsWf := false, writeDcg := false }

def nmT : Name := nameOfString "t"

def nmC : Name := nameOfString "c"

def locT : Loc := { path := Path.empty, id := ArtId.nominal nmT }

def locC : Loc := { path := Path.empty, id := ArtId.nominal nmC }

end WitnessObjects

section WitnessC1

/-- Witness for C1: a fresh engine, the pure successor producer at program
point 3, argument 5; the first force yields 6 with one evaluation, later
forces never evaluate again. -/
theorem c1_memoization_at_most_one_eval_witness :
    ((Engine.new flagsW).table { path := Path.empty, id := ArtId.nominal nmT } = none)
    ∧ ∃ st1 st2,
      thunk progW 4 (ArtIdChoice.nominal nmT) 3 5 (Engine.new flagsW)
        = (Except.ok (Art.loc { path := Path.empty, id := ArtId.nominal nmT }), st1)
      ∧ force progW 6 (Art.loc { path := Path.empty, id := ArtId.nominal nmT }) st1
        = (Except.ok 6, st2)
      ∧ st2.cnt.eval = (Engine.new flagsW).cnt.eval + 1
      ∧ ∀ k : Nat,
          (forceIterSt progW 6 { path := Path.empty, id := ArtId.nominal nmT } k st2).cnt.eval
            = st2.cnt.eval
          ∧ (force progW 6 (Art.loc { path := Path.empty, id := ArtId.nominal nmT })
              (forceIterSt progW 6 { path := Path.empty, id := ArtId.nominal nmT } k st2)).1
            = Except.ok 6 :=
  ⟨rfl,
   c1_memoization_at_most_one_eval progW (fun a => a + 1) 3 nmT 5 3
     (Engine.new flagsW) rfl rfl rfl rfl⟩

end WitnessC1

section WitnessC2

def succW2 : Succ :=
  { dirty := true, loc := locC, effect := Effect.observe, dep := Dep.producerDep 5 }

def stW2 : Engine :=
  { Engine.new flagsW with
      table := (Table.insert (Table.insert Table.empty locC (Node.mut [] 5)) locT
        (Node.comp [] [succW2] { progPt := 1, arg := 9 } (some 7))) }

/-- Witness for C2: one dirty observe edge onto a cell whose value still
equals the recorded result; propagation cleans it and reports no change. -/
theorem c2_change_prop_clean_reports_unchanged_witness :
    ([succW2].length + 2 ≤ 3)
    ∧ (changePropComp progW 4 7 locT 7 [succW2] stW2
        = (Except.ok false,
           { stW2 with
               table := (Table.insert stW2.table locT
                 (Node.comp [] (cleanList [succW2]) { progPt := 1, arg := 9 } (some 7))),
               cnt := { stW2.cnt with changeProp := stW2.cnt.changeProp + 1 } })
        ∧ ∀ s ∈ cleanList [succW2], s.dirty = false) :=
  ⟨by decide,
   c2_change_prop_clean_reports_unchanged progW 3 stW2 locT [] [succW2]
     { progPt := 1, arg := 9 } 7 (by decide) (by decide)
     (by simp [SuccKeysNodup])
     (by
       intro s hs
       rw [List.mem_singleton] at hs
       subst hs
       exact Or.inr ⟨[], 5, by decide, rfl⟩)⟩

end WitnessC2

section WitnessC4

def succW4 : Succ :=
  { dirty := true, loc := locC, effect := Effect.observe, dep := Dep.producerDep 9 }

def stW4 : Engine :=
  { Engine.new flagsW with
      table := (Table.insert (Table.insert Table.empty locC (Node.mut [] 5)) locT
        (Node.comp [] [succW4] { progPt := 2, arg := 0 } (some 7))) }

/-- Witness for C4: the single recorded edge is dirty and its witness
reports a change (the cell value 5 differs from the recorded 9), so the node
is re-produced once and the result compared against the previous one. -/
theorem c4_first_changed_edge_reproduces_witness :
    (([] : List Succ).length + 3 ≤ 3)
    ∧ changePropComp progW 4 7 locT 7 ([] ++ succW4 :: []) stW4
        = step (produce progW (3 - (([] : List Succ).length + 1)) locT
            { stW4 with
                table := (Table.insert stW4.table locT
                  (Node.comp [] (cleanList [] ++ succW4 :: []) { progPt := 2, arg := 0 }
                    (some 7))),
                cnt := { stW4.cnt with changeProp := stW4.cnt.changeProp + 1 } })
            (fun r st2 => (Except.ok (decide (r ≠ 7)), st2)) :=
  ⟨by decide,
   c4_first_changed_edge_reproduces progW 3 stW4 locT [] [] [] succW4
     { progPt := 2, arg := 0 } 7 (by decide) (by decide)
     (by simp [SuccKeysNodup])
     (by intro p hp; cases hp)
     (by decide)
     (Or.inr ⟨[], 5, 9, by decide, rfl, by decide⟩)⟩

end WitnessC4

section ClaimC5

/-- C5: calling `thunk(Nominal(nm), pp, y)` when a `CompNode` with the same
program point but stored argument `x ≠ y` already exists at that location
overwrites the stored argument with `y`, clears the cached result, and
dirties the location's allocation predecessor (here: the single allocation
predecessor `p`, whose allocate edge to the location becomes dirty), so
that the next force of the thunk yields `f y`; if the new argument equals
the stored one, the engine state is left completely unchanged. -/
theorem c5_nominal_replacement (prog : Prog) (fuel : Nat) (st : Engine)
    (nm : Name) (pp : ProgPt) (x y : Val) (f : Val → Val) (p : Loc)
    (res resP : Option Val) (prP : Producer) (dep0 : Dep)
    (hprog : prog pp = fun a => UComp.ret (f a))
    (hflag : st.flags.ignoreNominalUseStructural = false)
    (hstack : st.stack = [])
    (hnode : st.table { path := st.path, id := ArtId.nominal nm }
      = some (Node.comp [(Effect.allocate, p)] [] { progPt := pp, arg := x } res))
    (hp : st.table p = some (Node.comp []
      [{ dirty := false, loc := { path := st.path, id := ArtId.nominal nm },
         effect := Effect.allocate, dep := dep0 }] prP resP))
    (hne : p ≠ { path := st.path, id := ArtId.nominal nm })
    (hroot : st.root ≠ p)
    (hxy : y ≠ x) :
    thunk prog (fuel+4) (ArtIdChoice.nominal nm) pp y st
      = (Except.ok (Art.loc { path := st.path, id := ArtId.nominal nm }),
         { st with table := (Table.insert
             (Table.insert st.table { path := st.path, id := ArtId.nominal nm }
               (Node.comp [(Effect.allocate, p)] [] { progPt := pp, arg := y } none))
             p (Node.comp []
               [{ dirty := true, loc := { path := st.path, id := ArtId.nominal nm },
                  effect := Effect.allocate, dep := dep0 }] prP resP)) })
    ∧ (force prog (fuel+3) (Art.loc { path := st.path, id := ArtId.nominal nm })
        { st with table := (Table.insert
            (Table.insert st.table { path := st.path, id := ArtId.nominal nm }
              (Node.comp [(Effect.allocate, p)] [] { progPt := pp, arg := y } none))
            p (Node.comp []
              [{ dirty := true, loc := { path := st.path, id := ArtId.nominal nm },
                 effect := Effect.allocate, dep := dep0 }] prP resP)) }).1
        = Except.ok (f y)
    ∧ thunk prog (fuel+1) (ArtIdChoice.nominal nm) pp x st
        = (Except.ok (Art.loc { path := st.path, id := ArtId.nominal nm }), st) := by
  have hyx : ¬(x = y) := fun h => hxy h.symm
  have htp : Table.insert st.table { path := st.path, id := ArtId.nominal nm }
      (Node.comp [(Effect.allocate, p)] [] { progPt := pp, arg := y } none) p
      = st.table p := Table.insert_ne _ _ _ _ hne
  have hps : Table.insert
      (Table.insert st.table { path := st.path, id := ArtId.nominal nm }
        (Node.comp [(Effect.allocate, p)] [] { progPt := pp, arg := y } none))
      p (Node.comp []
        [{ dirty := true, loc := { path := st.path, id := ArtId.nominal nm },
           effect := Effect.allocate, dep := dep0 }] prP resP) p
      = some (Node.comp []
        [{ dirty := true, loc := { path := st.path, id := ArtId.nominal nm },
           effect := Effect.allocate, dep := dep0 }] prP resP) :=
    Table.insert_self _ _ _
  refine ⟨?_, ?_, ?_⟩
  · simp only [thunk, checkDcg, currentPath, hflag, hnode, Bool.false_eq_true,
      if_false, hyx, step, dirtyAlloc, dirtyPredObservers, dirtyObsLoop,
      dirtyAllocLoop, lookupAbs, Table.insert_self, Node.predsObsOf,
      Node.predsAllocOf, Node.predsOf, List.filterMap, getSuccOf, Node.succsOf,
      findSucc, setSuccDirty, setDirtyList, pushFrameSucc, hstack, htp, hp,
      hroot, Option.map, hps]
    simp [hps, htp, hp, hroot, dirtyObsLoop, Node.predsObsOf, Node.predsAllocOf,
      Node.predsOf, dirtyAllocLoop]
  · have hL : ({ st with table := (Table.insert
        (Table.insert st.table { path := st.path, id := ArtId.nominal nm }
          (Node.comp [(Effect.allocate, p)] [] { progPt := pp, arg := y } none))
        p (Node.comp []
          [{ dirty := true, loc := { path := st.path, id := ArtId.nominal nm },
             effect := Effect.allocate, dep := dep0 }] prP resP)) } : Engine).table
        { path := st.path, id := ArtId.nominal nm }
        = some (Node.comp [(Effect.allocate, p)] [] { progPt := pp, arg := y } none) := by
      show Table.insert _ _ _ _ = _
      rw [Table.insert_ne _ _ _ _ (Ne.symm hne), Table.insert_self]
    have hstk : ({ st with table := (Table.insert
        (Table.insert st.table { path := st.path, id := ArtId.nominal nm }
          (Node.comp [(Effect.allocate, p)] [] { progPt := pp, arg := y } none))
        p (Node.comp []
          [{ dirty := true, loc := { path := st.path, id := ArtId.nominal nm },
             effect := Effect.allocate, dep := dep0 }] prP resP)) } : Engine).stack
        = [] := hstack
    rw [force_produce_pure prog fuel _ { path := st.path, id := ArtId.nominal nm }
      [(Effect.allocate, p)] { progPt := pp, arg := y } f hprog hstk hL]
  · simp only [thunk, checkDcg, currentPath, hflag, hnode, Bool.false_eq_true,
      if_false, pushFrameSucc, hstack]
    simp

end ClaimC5

section WitnessC5

def nmP : Name := nameOfString "p"

def locP : Loc := { path := Path.empty, id := ArtId.nominal nmP }

def stW5 : Engine :=
  { Engine.new flagsW with
      table := (Table.insert
        (Table.insert Table.empty locP
          (Node.comp []
            [{ dirty := false, loc := locT, effect := Effect.allocate,
               dep := Dep.allocDep 1 }] { progPt := 9, arg := 9 } none))
        locT (Node.comp [(Effect.allocate, locP)] [] { progPt := 3, arg := 1 } (some 2))) }

/-- Witness for C5: nominal re-allocation with argument 2 over stored
argument 1 under the pure successor producer. -/
theorem c5_nominal_replacement_witness :
    (2 ≠ 1)
    ∧ thunk progW 5 (ArtIdChoice.nominal nmT) 3 2 stW5
        = (Except.ok (Art.loc locT),
           { stW5 with table := (Table.insert
               (Table.insert stW5.table locT
                 (Node.comp [(Effect.allocate, locP)] [] { progPt := 3, arg := 2 } none))
               locP (Node.comp []
                 [{ dirty := true, loc := locT, effect := Effect.allocate,
                    dep := Dep.allocDep 1 }] { progPt := 9, arg := 9 } none)) })
    ∧ (force progW 4 (Art.loc locT)
        { stW5 with table := (Table.insert
            (Table.insert stW5.table locT
              (Node.comp [(Effect.allocate, locP)] [] { progPt := 3, arg := 2 } none))
            locP (Node.comp []
              [{ dirty := true, loc := locT, effect := Effect.allocate,
                 dep := Dep.allocDep 1 }] { progPt := 9, arg := 9 } none)) }).1
        = Except.ok 3
    ∧ thunk progW 2 (ArtIdChoice.nominal nmT) 3 1 stW5
        = (Except.ok (Art.loc locT), stW5) :=
  ⟨by decide,
   (c5_nominal_replacement progW 1 stW5 nmT 3 1 2 (fun a => a + 1) locP (some 2)
     none { progPt := 9, arg := 9 } (Dep.allocDep 1) rfl rfl rfl (by decide)
     (by decide) (by decide) (by decide) (by decide)).1,
   (c5_nominal_replacement progW 1 stW5 nmT 3 1 2 (fun a => a + 1) locP (some 2)
     none { progPt := 9, arg := 9 } (Dep.allocDep 1) rfl rfl rfl (by decide)
     (by decide) (by decide) (by decide) (by decide)).2.1,
   (c5_nominal_replacement progW 1 stW5 nmT 3 1 2 (fun a => a + 1) locP (some 2)
     none { progPt := 9, arg := 9 } (Dep.allocDep 1) rfl rfl rfl (by decide)
     (by decide) (by decide) (by decide) (by decide)).2.2⟩

end WitnessC5

section ClaimC8

def stC8 : Engine :=
  { Engine.new flagsW with
      table := (Table.insert Table.empty locC (Node.mut [] 1)),
      stack := [{ loc := locT, succs := [] }] }

/-- C8 counterexample: the claim that no engine operation invoked with a
non-empty frame stack replaces the value stored in an existing `MutNode` is
false.  At the concrete state `stC8` (one frame on the stack, so a producer
is executing) the node at `locC` stores 1, and `cell` on that location with
the new value 2 succeeds and replaces the stored value: `cell` delegates to
the internal `set_`, which has no frame-stack check. -/
theorem c8_counterexample_cell_mutates_inside_producer :
    stC8.stack ≠ []
    ∧ stC8.table locC = some (Node.mut [] 1)
    ∧ (cell 9 nmC 2 stC8).1 = Except.ok locC
    ∧ ((cell 9 nmC 2 stC8).2).table locC = some (Node.mut [] 2) := by
  decide

/-- C8 (amended): the stored value of a `MutNode` is replaced by the public
`set` operation (which is disallowed while any producer executes, see the
`set` stack assertion) and also by `cell` at the same location, which
delegates to the internal `set_` without any frame-stack check: `cell` on an
existing `MutNode` with a different value replaces the stored value no
matter what the frame stack holds, so a producer can mutate a cell through
nominal re-allocation. -/
theorem c8_amended_cell_replaces_mut_value (fuel : Nat) (st : Engine)
    (nm : Name) (v w : Val)
    (hflag : st.flags.ignoreNominalUseStructural = false)
    (hnode : st.table { path := st.path, id := ArtId.nominal nm }
      = some (Node.mut [] v))
    (hvw : v ≠ w) :
    (cell (fuel+2) nm w st).1 = Except.ok { path := st.path, id := ArtId.nominal nm }
    ∧ ((cell (fuel+2) nm w st).2).table { path := st.path, id := ArtId.nominal nm }
        = some (Node.mut [] w) := by
  have hrun : cell (fuel+2) nm w st
      = (Except.ok { path := st.path, id := ArtId.nominal nm },
         checkDcg (pushFrameSucc
           { st with table := (Table.insert st.table
               { path := st.path, id := ArtId.nominal nm } (Node.mut [] w)) }
           { dirty := false, loc := { path := st.path, id := ArtId.nominal nm },
             effect := Effect.allocate, dep := Dep.allocDep w })) := by
    simp only [cell, checkDcg, currentPath, hflag, hnode, step, set_,
      dirtyAlloc, dirtyPredObservers, dirtyObsLoop, dirtyAllocLoop, lookupAbs,
      Table.insert_self, Node.predsObsOf, Node.predsAllocOf, Node.predsOf,
      List.filterMap]
    simp [hvw, hnode, step, set_, dirtyAlloc, dirtyPredObservers, dirtyObsLoop,
      dirtyAllocLoop, lookupAbs, Table.insert_self, Node.predsObsOf,
      Node.predsAllocOf, Node.predsOf]
  constructor
  · rw [hrun]
  · rw [hrun]
    show (pushFrameSucc _ _).table _ = _
    rw [pushFrameSucc_table]
    exact Table.insert_self _ _ _

/-- Witness for C8 (amended) at the concrete state `stC8`. -/
theorem c8_amended_cell_replaces_mut_value_witness :
    (1 ≠ 2)
    ∧ (cell 9 nmC 2 stC8).1 = Except.ok { path := stC8.path, id := ArtId.nominal nmC }
    ∧ ((cell 9 nmC 2 stC8).2).table { path := stC8.path, id := ArtId.nominal nmC }
        = some (Node.mut [] 2) :=
  ⟨by decide,
   (c8_amended_cell_replaces_mut_value 7 stC8 nmC 1 2 rfl (by decide) (by decide)).1,
   (c8_amended_cell_replaces_mut_value 7 stC8 nmC 1 2 rfl (by decide) (by decide)).2⟩

end ClaimC8

section ClaimC9

/-- C9 counterexample: the claim that `ns(name, body)` restores the previous
path afterward *including when `body` exits abnormally* is false.  At the
concrete fresh engine, a body that aborts (forcing a dangling location
panics with `DanglingLocation`) leaves the engine with the extended path:
the Rust code restores the path by a plain assignment after `body(self)`
returns, which a panic skips. -/
theorem c9_counterexample_ns_abnormal_exit :
    (ns nmT (force progW 3 (Art.loc locC)) (Engine.new flagsW)).1
      = Except.error (Err.danglingLoc locC)
    ∧ ((ns nmT (force progW 3 (Art.loc locC)) (Engine.new flagsW)).2).path
        = Path.child (Engine.new flagsW).path nmT
    ∧ ((ns nmT (force progW 3 (Art.loc locC)) (Engine.new flagsW)).2).path
        ≠ (Engine.new flagsW).path := by
  decide

/-- C9 (amended): `ns(name, body)` extends the engine's current path with
`name` for exactly the duration of `body` — an allocation inside `body` uses
the extended path — and restores the previous path when `body` returns
normally; on abnormal exit of `body` the path is left extended (not
restored). -/
theorem c9_amended_ns_extends_and_restores (fuel : Nat) (st : Engine)
    (nm cnm : Name) (v : Val)
    (hflag : st.flags.ignoreNominalUseStructural = false)
    (hstack : st.stack = [])
    (hfresh : st.table { path := Path.child st.path nm, id := ArtId.nominal cnm }
      = none) :
    ns nm (cell fuel cnm v) st
      = (Except.ok { path := Path.child st.path nm, id := ArtId.nominal cnm },
         { st with table := (Table.insert st.table
             { path := Path.child st.path nm, id := ArtId.nominal cnm }
             (Node.mut [] v)) })
    ∧ ({ st with table := (Table.insert st.table
          { path := Path.child st.path nm, id := ArtId.nominal cnm }
          (Node.mut [] v)) } : Engine).path = st.path := by
  refine ⟨?_, rfl⟩
  have hcell : cell fuel cnm v { st with path := Path.child st.path nm }
      = (Except.ok { path := Path.child st.path nm, id := ArtId.nominal cnm },
         { st with path := Path.child st.path nm,
                   table := (Table.insert st.table
                     { path := Path.child st.path nm, id := ArtId.nominal cnm }
                     (Node.mut [] v)) }) := by
    simp only [cell, checkDcg, currentPath, hflag, hfresh, step, pushFrameSucc,
      hstack]
    simp [hfresh, hstack, pushFrameSucc, step]
  simp only [ns, hcell]

/-- Witness for C9 (amended): allocating the cell "c" with value 7 inside
`ns "t"` places it at the extended path and restores the empty path. -/
theorem c9_amended_ns_extends_and_restores_witness :
    ns nmT (cell 5 nmC 7) (Engine.new flagsW)
      = (Except.ok { path := Path.child Path.empty nmT, id := ArtId.nominal nmC },
         { Engine.new flagsW with
             table := (Table.insert (Engine.new flagsW).table
               { path := Path.child Path.empty nmT, id := ArtId.nominal nmC }
               (Node.mut [] 7)) })
    ∧ ({ Engine.new flagsW with
          table := (Table.insert (Engine.new flagsW).table
            { path := Path.child Path.empty nmT, id := ArtId.nominal nmC }
            (Node.mut [] 7)) } : Engine).path = (Engine.new flagsW).path :=
  c9_amended_ns_extends_and_restores 5 (Engine.new flagsW) nmT nmC 7 rfl rfl rfl

end ClaimC9

section ClaimC10

/-- C10: when `cell(name, v)` replaces an existing `CompNode` at a location,
or `thunk(Nominal(nm), ...)` replaces an existing `MutNode`, the replacement
node is inserted with an empty predecessor list: every `(effect,
predecessor)` pair recorded on the old node is discarded. Consequently a
subsequent mutation at that location dirties nothing through the old
predecessors — the predecessor's node is left untouched by the later
mutation — even though its successor edge to the location remains installed
(still present in its successor list, dirty from the replacement itself). -/
theorem c10_replacement_discards_predecessors (prog : Prog) (fuel : Nat) :
    (∀ (st : Engine) (nm : Name) (v v2 : Val) (p : Loc) (prC prP : Producer)
       (resC resP : Option Val) (dep0 : Dep),
      st.flags.ignoreNominalUseStructural = false →
      st.stack = [] →
      st.table { path := st.path, id := ArtId.nominal nm }
        = some (Node.comp [(Effect.allocate, p)] [] prC resC) →
      st.table p = some (Node.comp []
        [{ dirty := false, loc := { path := st.path, id := ArtId.nominal nm },
           effect := Effect.allocate, dep := dep0 }] prP resP) →
      p ≠ { path := st.path, id := ArtId.nominal nm } →
      st.root ≠ p →
      v ≠ v2 →
      cell (fuel+3) nm v st
        = (Except.ok { path := st.path, id := ArtId.nominal nm },
           { st with table := (Table.insert
               (Table.insert st.table p (Node.comp []
                 [{ dirty := true, loc := { path := st.path, id := ArtId.nominal nm },
                    effect := Effect.allocate, dep := dep0 }] prP resP))
               { path := st.path, id := ArtId.nominal nm } (Node.mut [] v)) })
      ∧ set (fuel+3) { path := st.path, id := ArtId.nominal nm } v2
          { st with table := (Table.insert
              (Table.insert st.table p (Node.comp []
                [{ dirty := true, loc := { path := st.path, id := ArtId.nominal nm },
                   effect := Effect.allocate, dep := dep0 }] prP resP))
              { path := st.path, id := ArtId.nominal nm } (Node.mut [] v)) }
          = (Except.ok (),
             { st with table := (Table.insert (Table.insert
                 (Table.insert st.table p (Node.comp []
                   [{ dirty := true, loc := { path := st.path, id := ArtId.nominal nm },
                      effect := Effect.allocate, dep := dep0 }] prP resP))
                 { path := st.path, id := ArtId.nominal nm } (Node.mut [] v))
                 { path := st.path, id := ArtId.nominal nm } (Node.mut [] v2)) })
      ∧ (Table.insert (Table.insert
           (Table.insert st.table p (Node.comp []
             [{ dirty := true, loc := { path := st.path, id := ArtId.nominal nm },
                effect := Effect.allocate, dep := dep0 }] prP resP))
           { path := st.path, id := ArtId.nominal nm } (Node.mut [] v))
           { path := st.path, id := ArtId.nominal nm } (Node.mut [] v2)) p
          = some (Node.comp []
            [{ dirty := true, loc := { path := st.path, id := ArtId.nominal nm },
               effect := Effect.allocate, dep := dep0 }] prP resP))
    ∧ (∀ (st : Engine) (nm : Name) (pp : ProgPt) (y z w : Val) (p : Loc)
         (prP : Producer) (resP : Option Val) (dep0 : Dep),
      st.flags.ignoreNominalUseStructural = false →
      st.stack = [] →
      st.table { path := st.path, id := ArtId.nominal nm }
        = some (Node.mut [(Effect.allocate, p)] w) →
      st.table p = some (Node.comp []
        [{ dirty := false, loc := { path := st.path, id := ArtId.nominal nm },
           effect := Effect.allocate, dep := dep0 }] prP resP) →
      p ≠ { path := st.path, id := ArtId.nominal nm } →
      st.root ≠ p →
      z ≠ y →
      thunk prog (fuel+4) (ArtIdChoice.nominal nm) pp y st
        = (Except.ok (Art.loc { path := st.path, id := ArtId.nominal nm }),
           { st with table := (Table.insert
               (Table.insert st.table p (Node.comp []
                 [{ dirty := true, loc := { path := st.path, id := ArtId.nominal nm },
                    effect := Effect.allocate, dep := dep0 }] prP resP))
               { path := st.path, id := ArtId.nominal nm }
               (Node.comp [] [] { progPt := pp, arg := y } none)) })
      ∧ thunk prog (fuel+4) (ArtIdChoice.nominal nm) pp z
          { st with table := (Table.insert
              (Table.insert st.table p (Node.comp []
                [{ dirty := true, loc := { path := st.path, id := ArtId.nominal nm },
                   effect := Effect.allocate, dep := dep0 }] prP resP))
              { path := st.path, id := ArtId.nominal nm }
              (Node.comp [] [] { progPt := pp, arg := y } none)) }
          = (Except.ok (Art.loc { path := st.path, id := ArtId.nominal nm }),
             { st with table := (Table.insert (Table.insert
                 (Table.insert st.table p (Node.comp []
                   [{ dirty := true, loc := { path := st.path, id := ArtId.nominal nm },
                      effect := Effect.allocate, dep := dep0 }] prP resP))
                 { path := st.path, id := ArtId.nominal nm }
                 (Node.comp [] [] { progPt := pp, arg := y } none))
                 { path := st.path, id := ArtId.nominal nm }
                 (Node.comp [] [] { progPt := pp, arg := z } none)) })
      ∧ (Table.insert (Table.insert
           (Table.insert st.table p (Node.comp []
             [{ dirty := true, loc := { path := st.path, id := ArtId.nominal nm },
                effect := Effect.allocate, dep := dep0 }] prP resP))
           { path := st.path, id := ArtId.nominal nm }
           (Node.comp [] [] { progPt := pp, arg := y } none))
           { path := st.path, id := ArtId.nominal nm }
           (Node.comp [] [] { progPt := pp, arg := z } none)) p
          = some (Node.comp []
            [{ dirty := true, loc := { path := st.path, id := ArtId.nominal nm },
               effect := Effect.allocate, dep := dep0 }] prP resP)) := by
  constructor
  · intro st nm v v2 p prC prP resC resP dep0 hflag hstack hnode hp hne hroot hvv
    have hips : Table.insert st.table p (Node.comp []
        [{ dirty := true, loc := { path := st.path, id := ArtId.nominal nm },
           effect := Effect.allocate, dep := dep0 }] prP resP) p
        = some (Node.comp []
          [{ dirty := true, loc := { path := st.path, id := ArtId.nominal nm },
             effect := Effect.allocate, dep := dep0 }] prP resP) :=
      Table.insert_self _ _ _
    have hsl : Table.insert (Table.insert st.table p (Node.comp []
        [{ dirty := true, loc := { path := st.path, id := ArtId.nominal nm },
           effect := Effect.allocate, dep := dep0 }] prP resP))
        { path := st.path, id := ArtId.nominal nm } (Node.mut [] v)
        { path := st.path, id := ArtId.nominal nm } = some (Node.mut [] v) :=
      Table.insert_self _ _ _
    have hsl2 : Table.insert (Table.insert (Table.insert st.table p (Node.comp []
        [{ dirty := true, loc := { path := st.path, id := ArtId.nominal nm },
           effect := Effect.allocate, dep := dep0 }] prP resP))
        { path := st.path, id := ArtId.nominal nm } (Node.mut [] v))
        { path := st.path, id := ArtId.nominal nm } (Node.mut [] v2)
        { path := st.path, id := ArtId.nominal nm } = some (Node.mut [] v2) :=
      Table.insert_self _ _ _
    refine ⟨?_, ?_, ?_⟩
    · simp only [cell, checkDcg, currentPath, hflag, hnode, step, dirtyAlloc,
        dirtyPredObservers, dirtyObsLoop, dirtyAllocLoop, lookupAbs, getSuccOf,
        Node.succsOf, findSucc, setSuccDirty, setDirtyList, revokeSuccs,
        Table.insert_self, Node.predsObsOf, Node.predsAllocOf, Node.predsOf,
        List.filterMap, pushFrameSucc, hstack, hp, hroot, hips]
      simp [hnode, hp, hroot, hips, step, lookupAbs, getSuccOf, Node.succsOf,
        findSucc, setSuccDirty, setDirtyList, dirtyObsLoop, dirtyAllocLoop,
        dirtyPredObservers, Node.predsObsOf, Node.predsAllocOf, Node.predsOf,
        revokeSuccs, pushFrameSucc, hstack]
    · simp only [set, checkDcg, step, set_, hsl, hstack, dirtyAlloc,
        dirtyPredObservers, dirtyObsLoop, dirtyAllocLoop, lookupAbs, hsl2,
        Node.predsObsOf, Node.predsAllocOf, Node.predsOf, List.filterMap]
      simp [hvv, hsl, hsl2, step, lookupAbs, dirtyObsLoop, dirtyAllocLoop,
        dirtyPredObservers, Node.predsObsOf, Node.predsAllocOf, Node.predsOf,
        hstack]
    · rw [Table.insert_ne _ _ _ _ hne, Table.insert_ne _ _ _ _ hne]
      exact hips
  · intro st nm pp y z w p prP resP dep0 hflag hstack hnode hp hne hroot hzy
    have hyz : ¬(y = z) := fun h => hzy h.symm
    have hips : Table.insert st.table p (Node.comp []
        [{ dirty := true, loc := { path := st.path, id := ArtId.nominal nm },
           effect := Effect.allocate, dep := dep0 }] prP resP) p
        = some (Node.comp []
          [{ dirty := true, loc := { path := st.path, id := ArtId.nominal nm },
             effect := Effect.allocate, dep := dep0 }] prP resP) :=
      Table.insert_self _ _ _
    have hCL : Table.insert (Table.insert st.table p (Node.comp []
        [{ dirty := true, loc := { path := st.path, id := ArtId.nominal nm },
           effect := Effect.allocate, dep := dep0 }] prP resP))
        { path := st.path, id := ArtId.nominal nm }
        (Node.comp [] [] { progPt := pp, arg := y } none)
        { path := st.path, id := ArtId.nominal nm }
        = some (Node.comp [] [] { progPt := pp, arg := y } none) :=
      Table.insert_self _ _ _
    have hDL : Table.insert (Table.insert (Table.insert st.table p (Node.comp []
        [{ dirty := true, loc := { path := st.path, id := ArtId.nominal nm },
           effect := Effect.allocate, dep := dep0 }] prP resP))
        { path := st.path, id := ArtId.nominal nm }
        (Node.comp [] [] { progPt := pp, arg := y } none))
        { path := st.path, id := ArtId.nominal nm }
        (Node.comp [] [] { progPt := pp, arg := z } none)
        { path := st.path, id := ArtId.nominal nm }
        = some (Node.comp [] [] { progPt := pp, arg := z } none) :=
      Table.insert_self _ _ _
    refine ⟨?_, ?_, ?_⟩
    · simp only [thunk, checkDcg, currentPath, hflag, hnode, step, dirtyAlloc,
        dirtyPredObservers, dirtyObsLoop, dirtyAllocLoop, lookupAbs, getSuccOf,
        Node.succsOf, findSucc, setSuccDirty, setDirtyList, Table.insert_self,
        Node.predsObsOf, Node.predsAllocOf, Node.predsOf, List.filterMap,
        pushFrameSucc, hstack, hp, hroot, hips]
      simp [hnode, hp, hroot, hips, step, lookupAbs, getSuccOf, Node.succsOf,
        findSucc, setSuccDirty, setDirtyList, dirtyObsLoop, dirtyAllocLoop,
        dirtyPredObservers, Node.predsObsOf, Node.predsAllocOf, Node.predsOf,
        pushFrameSucc, hstack]
    · simp only [thunk, checkDcg, currentPath, hflag, hCL, step, dirtyAlloc,
        dirtyPredObservers, dirtyObsLoop, dirtyAllocLoop, lookupAbs, hDL,
        Node.predsObsOf, Node.predsAllocOf, Node.predsOf, List.filterMap,
        pushFrameSucc, hstack]
      simp [hyz, hCL, hDL, step, lookupAbs, dirtyObsLoop, dirtyAllocLoop,
        dirtyPredObservers, Node.predsObsOf, Node.predsAllocOf, Node.predsOf,
        pushFrameSucc, hstack]
    · rw [Table.insert_ne _ _ _ _ hne, Table.insert_ne _ _ _ _ hne]
      exact hips

end ClaimC10

section WitnessC10

/-- The predecessor node after its allocation edge to `locT` is dirtied. -/
def npW : Node :=
  Node.comp []
    [{ dirty := true, loc := locT, effect := Effect.allocate, dep := Dep.allocDep 1 }]
    { progPt := 9, arg := 9 } none

def stWA : Engine :=
  { Engine.new flagsW with
      table := (Table.insert
        (Table.insert Table.empty locP
          (Node.comp []
            [{ dirty := false, loc := locT, effect := Effect.allocate,
               dep := Dep.allocDep 1 }] { progPt := 9, arg := 9 } none))
        locT (Node.comp [(Effect.allocate, locP)] [] { progPt := 3, arg := 1 } (some 2))) }

def stWB : Engine :=
  { Engine.new flagsW with
      table := (Table.insert
        (Table.insert Table.empty locP
          (Node.comp []
            [{ dirty := false, loc := locT, effect := Effect.allocate,
               dep := Dep.allocDep 1 }] { progPt := 9, arg := 9 } none))
        locT (Node.mut [(Effect.allocate, locP)] 5)) }

/-- Witness for C10: a cell replacing a CompNode and a nominal thunk
replacing a MutNode, each followed by a mutation at the replaced location;
the old allocation predecessor `locP` keeps its (dirty) successor edge but
is never touched by the later mutation. -/
theorem c10_replacement_discards_predecessors_witness :
    ((7:Val) ≠ 8)
    ∧ cell 3 nmT 7 stWA
        = (Except.ok locT,
           { stWA with table := (Table.insert (Table.insert stWA.table locP npW)
               locT (Node.mut [] 7)) })
    ∧ set 3 locT 8
        { stWA with table := (Table.insert (Table.insert stWA.table locP npW)
            locT (Node.mut [] 7)) }
        = (Except.ok (),
           { stWA with table := (Table.insert (Table.insert
               (Table.insert stWA.table locP npW) locT (Node.mut [] 7))
               locT (Node.mut [] 8)) })
    ∧ (Table.insert (Table.insert (Table.insert stWA.table locP npW)
         locT (Node.mut [] 7)) locT (Node.mut [] 8)) locP = some npW
    ∧ ((2:Val) ≠ 1)
    ∧ thunk progW 4 (ArtIdChoice.nominal nmT) 3 1 stWB
        = (Except.ok (Art.loc locT),
           { stWB with table := (Table.insert (Table.insert stWB.table locP npW)
               locT (Node.comp [] [] { progPt := 3, arg := 1 } none)) })
    ∧ thunk progW 4 (ArtIdChoice.nominal nmT) 3 2
        { stWB with table := (Table.insert (Table.insert stWB.table locP npW)
            locT (Node.comp [] [] { progPt := 3, arg := 1 } none)) }
        = (Except.ok (Art.loc locT),
           { stWB with table := (Table.insert (Table.insert
               (Table.insert stWB.table locP npW)
               locT (Node.comp [] [] { progPt := 3, arg := 1 } none))
               locT (Node.comp [] [] { progPt := 3, arg := 2 } none)) })
    ∧ (Table.insert (Table.insert (Table.insert stWB.table locP npW)
         locT (Node.comp [] [] { progPt := 3, arg := 1 } none))
         locT (Node.comp [] [] { progPt := 3, arg := 2 } none)) locP = some npW := by
  have hA := (c10_replacement_discards_predecessors progW 0).1 stWA nmT 7 8 locP
    { progPt := 3, arg := 1 } { progPt := 9, arg := 9 } (some 2) none (Dep.allocDep 1)
    rfl rfl rfl rfl (by decide) (by decide) (by decide)
  have hB := (c10_replacement_discards_predecessors progW 0).2 stWB nmT 3 1 2 5 locP
    { progPt := 9, arg := 9 } none (Dep.allocDep 1)
    rfl rfl rfl rfl (by decide) (by decide) (by decide)
  exact ⟨by decide, hA.1, hA.2.1, hA.2.2, by decide, hB.1, hB.2.1, hB.2.2⟩

end WitnessC10

end Adapton
